import Mathlib

/-
Verification of the AutoDevHub story-generation and quality-analysis engine
(backend/services/story_generator.py and backend/services/ai_client.py).

The Python code is shallowly embedded: Python `str` values are Lean `String`s
and the string operations the code uses (`strip`, `lower`, `split`,
`startswith`, `in`, `join`, `rstrip`, `capitalize`, `re.sub(r"\s+", " ", _)`)
are modelled by executable functions on `List Char` below.  Python floats are
modelled as rationals, `datetime.utcnow()` is passed in as an explicit `now`
argument, and Python dicts holding story records are modelled as association
lists over a small value type.
-/

namespace ADH

/-- Python whitespace for `str.strip` / `str.split` / `\s`:
space, tab, newline, carriage return, vertical tab, form feed. -/
def pyIsSpace (c : Char) : Bool :=
  c == ' ' || c == '\t' || c == '\n' || c == '\r' || c == Char.ofNat 11 || c == Char.ofNat 12

/-- Remove leading whitespace (Python `str.lstrip`). -/
def lstripL (l : List Char) : List Char := l.dropWhile pyIsSpace

/-- Remove trailing whitespace (Python `str.rstrip`). -/
def rstripL (l : List Char) : List Char := (l.reverse.dropWhile pyIsSpace).reverse

/-- Remove leading and trailing whitespace (Python `str.strip`). -/
def pyStripL (l : List Char) : List Char := rstripL (lstripL l)

def pyStrip (s : String) : String := String.mk (pyStripL s.data)

def pyRstrip (s : String) : String := String.mk (rstripL s.data)

/-- Python `str.lower` (the code only ever lowercases ASCII text). -/
def pyLower (s : String) : String := String.mk (s.data.map Char.toLower)

/-- Does the first list lead the second (Python `str.startswith`)? -/
def leadsWith : List Char → List Char → Bool
  | [], _ => true
  | _ :: _, [] => false
  | p :: ps, c :: cs => p == c && leadsWith ps cs

def pyStartswith (s pre : String) : Bool := leadsWith pre.data s.data

/-- Does the first list occur contiguously inside the second
(Python `needle in hay`)? -/
def occursIn : List Char → List Char → Bool
  | needle, [] => needle.isEmpty
  | needle, c :: cs => leadsWith needle (c :: cs) || occursIn needle cs

def pyIn (needle hay : String) : Bool := occursIn needle.data hay.data

/-- `re.sub(r"\s+", " ", _)`: replace every maximal whitespace run by one space. -/
def collapseWS : List Char → List Char
  | [] => []
  | [c] => if pyIsSpace c then [' '] else [c]
  | c₁ :: c₂ :: rest =>
    if pyIsSpace c₁ && pyIsSpace c₂ then collapseWS (c₂ :: rest)
    else if pyIsSpace c₁ then ' ' :: collapseWS (c₂ :: rest)
    else c₁ :: collapseWS (c₂ :: rest)

/-- Python `str.split("\n")`: split at every newline, keeping empty pieces. -/
def splitLinesL : List Char → List (List Char)
  | [] => [[]]
  | c :: cs =>
    if c == '\n' then [] :: splitLinesL cs
    else
      match splitLinesL cs with
      | [] => [[c]]
      | w :: ws => (c :: w) :: ws

def pySplitLines (s : String) : List String := (splitLinesL s.data).map String.mk

/-- Worker for no-argument `str.split`: `acc` holds the current word reversed. -/
def splitWSAux : List Char → List Char → List (List Char)
  | [], acc => if acc.isEmpty then [] else [acc.reverse]
  | c :: cs, acc =>
    if pyIsSpace c then
      if acc.isEmpty then splitWSAux cs [] else acc.reverse :: splitWSAux cs []
    else splitWSAux cs (c :: acc)

/-- Python no-argument `str.split`: whitespace runs separate words, no empties. -/
def pySplitWS (s : String) : List String := (splitWSAux s.data []).map String.mk

/-- Python `sep.join(words)` at the character level. -/
def joinWithL (sep : List Char) : List (List Char) → List Char
  | [] => []
  | [w] => w
  | w :: ws => w ++ sep ++ joinWithL sep ws

def pyJoin (sep : String) (ws : List String) : String :=
  String.mk (joinWithL sep.data (ws.map String.data))

/-- Python `str.capitalize`: first character uppercased, the rest lowercased. -/
def pyCapitalize (w : String) : String :=
  match w.data with
  | [] => ""
  | c :: cs => String.mk (Char.toUpper c :: cs.map Char.toLower)

/-! ## Enumerations (`StoryType`, `Priority`) -/

inductive StoryType where
  | epic
  | feature
  | story
  | task
deriving DecidableEq

def StoryType.value : StoryType → String
  | .epic => "epic"
  | .feature => "feature"
  | .story => "story"
  | .task => "task"

/-- `StoryType(v)`: the enum member for a value string, if any. -/
def parseStoryType (v : String) : Option StoryType :=
  if v == "epic" then some .epic
  else if v == "feature" then some .feature
  else if v == "story" then some .story
  else if v == "task" then some .task
  else none

inductive Priority where
  | low
  | medium
  | high
  | critical
deriving DecidableEq

def Priority.value : Priority → String
  | .low => "low"
  | .medium => "medium"
  | .high => "high"
  | .critical => "critical"

/-- `Priority(v)`: the enum member for a value string, if any. -/
def parsePriority (v : String) : Option Priority :=
  if v == "low" then some .low
  else if v == "medium" then some .medium
  else if v == "high" then some .high
  else if v == "critical" then some .critical
  else none

/-! ## The template catalog (`StoryTemplate`) -/

/-- One canned scenario of a template (`name`/`given`/`when`/`then`). -/
structure ScenarioT where
  name : String
  givenStep : String
  whenStep : String
  thenStep : String
deriving DecidableEq

/-- One entry of `StoryTemplate.FEATURE_PATTERNS`: the dict key, the keyword
list and the template (display name plus two canned scenarios). -/
structure FeaturePattern where
  ftype : String
  keywords : List String
  featureName : String
  scenarios : List ScenarioT
deriving DecidableEq

/-- `StoryTemplate.USER_ROLES`, in source (insertion) order. -/
def USER_ROLES : List (String × String) :=
  [("auth", "user"), ("login", "user"), ("register", "user"), ("profile", "user"),
   ("account", "user"), ("admin", "administrator"), ("manage", "administrator"),
   ("dashboard", "user"), ("api", "developer"), ("data", "analyst"),
   ("report", "manager"), ("payment", "customer"), ("order", "customer"),
   ("notification", "user"), ("search", "user"), ("chat", "user"),
   ("message", "user"), ("file", "user"), ("upload", "user"), ("download", "user")]

/-- `StoryTemplate.FEATURE_PATTERNS`, in source (insertion) order. -/
def FEATURE_PATTERNS : List FeaturePattern :=
  [{ ftype := "authentication",
     keywords := ["auth", "login", "register", "sign", "password", "token"],
     featureName := "User Authentication",
     scenarios :=
       [⟨"Successful authentication", "I am on the login page",
         "I enter valid credentials", "I should be logged in successfully"⟩,
        ⟨"Invalid credentials", "I am on the login page",
         "I enter invalid credentials", "I should see an error message"⟩] },
   { ftype := "crud",
     keywords := ["create", "add", "edit", "update", "delete", "remove", "manage"],
     featureName := "Data Management",
     scenarios :=
       [⟨"Create new item", "I am on the management page",
         "I create a new item with valid information", "the item should be saved successfully"⟩,
        ⟨"Update existing item", "I have an existing item",
         "I update the item information", "the changes should be saved"⟩] },
   { ftype := "api",
     keywords := ["api", "endpoint", "service", "rest", "graphql"],
     featureName := "API Integration",
     scenarios :=
       [⟨"Successful API call", "the API is available",
         "I make a valid API request", "I should receive the correct response"⟩,
        ⟨"Handle API errors", "the API is unavailable",
         "I make an API request", "I should receive an appropriate error message"⟩] },
   { ftype := "search",
     keywords := ["search", "find", "filter", "query", "lookup"],
     featureName := "Search Functionality",
     scenarios :=
       [⟨"Successful search", "I am on the search page",
         "I enter a search term and click search", "I should see relevant results"⟩,
        ⟨"No search results", "I am on the search page",
         "I search for a term with no matches", "I should see a no results message"⟩] },
   { ftype := "file_management",
     keywords := ["file", "upload", "download", "attach", "document"],
     featureName := "File Management",
     scenarios :=
       [⟨"Upload file successfully", "I am on the file upload page",
         "I select and upload a valid file", "the file should be uploaded successfully"⟩,
        ⟨"Invalid file type", "I am on the file upload page",
         "I try to upload an invalid file type", "I should see an error message"⟩] },
   { ftype := "notification",
     keywords := ["notification", "alert", "message", "email", "notify"],
     featureName := "Notification System",
     scenarios :=
       [⟨"Receive notification", "I have notifications enabled",
         "an event occurs that requires notification", "I should receive a notification"⟩,
        ⟨"Mark notification as read", "I have unread notifications",
         "I click on a notification", "it should be marked as read"⟩] }]

/-! ## Fixed word tables of `StoryGenerator` -/

/-- Filler words removed by `_normalize_description`. -/
def filler_words : List String :=
  ["the", "a", "an", "and", "or", "but", "in", "on", "at", "to", "for", "of", "with", "by"]

/-- Action verbs scanned by `_extract_action`. -/
def action_verbs : List String :=
  ["create", "add", "update", "edit", "delete", "remove", "view", "see", "manage",
   "search", "find", "upload", "download", "send", "receive", "login", "register",
   "authenticate", "access", "configure", "setup", "enable", "disable"]

/-- Keyword-to-benefit table of `_extract_benefit`, in source order. -/
def benefits : List (String × String) :=
  [("auth", "securely access my account"), ("login", "access the system securely"),
   ("search", "quickly find the information I need"), ("upload", "share and store my files"),
   ("manage", "efficiently organize my data"),
   ("notification", "stay informed about important updates"),
   ("api", "integrate with external systems"),
   ("dashboard", "have an overview of my information"),
   ("profile", "maintain my personal information")]

/-- Base story points per feature type (`_estimate_effort`). -/
def base_efforts : List (String × Nat) :=
  [("authentication", 8), ("crud", 5), ("api", 5), ("search", 3),
   ("file_management", 8), ("notification", 3), ("general", 3)]

/-- Complexity keyword bonuses (`_estimate_effort`), in source order. -/
def complexity_keywords : List (String × Nat) :=
  [("integration", 2), ("security", 2), ("authentication", 2), ("payment", 3),
   ("real-time", 2), ("dashboard", 2), ("admin", 2), ("reporting", 2),
   ("analytics", 2), ("ai", 3), ("machine learning", 3), ("complex", 2), ("multiple", 1)]

/-! ## The generation pipeline (`StoryGenerator`) -/

/-- `_normalize_description`: strip, lowercase, collapse whitespace, then drop
filler words unless the description has at most three words. -/
def normalize_description (description : String) : String :=
  let normalized := String.mk (collapseWS ((pyStripL description.data).map Char.toLower))
  let words := pySplitWS normalized
  let filtered_words := words.filter (fun w => !(filler_words.contains w) || decide (words.length ≤ 3))
  pyJoin " " filtered_words

/-- Python `max(items, key=score)` over a non-empty association list: the first
item whose score is maximal wins (a later item replaces only on strictly
greater score). -/
def maxByScore (best : String × Nat) : List (String × Nat) → String × Nat
  | [] => best
  | q :: qs => if best.2 < q.2 then maxByScore q qs else maxByScore best qs

/-- `_detect_feature_type`: score each catalog entry by how many of its
keywords occur in the lowercased description; highest positive score wins,
`"general"` if every score is zero. -/
def detect_feature_type (description : String) : String :=
  let description_lower := pyLower description
  let type_scores :=
    (FEATURE_PATTERNS.map
      (fun p => (p.ftype, (p.keywords.filter (fun k => pyIn k description_lower)).length))).filter
      (fun q => decide (0 < q.2))
  match type_scores with
  | [] => "general"
  | q :: qs => (maxByScore q qs).1

/-- The scan loop of `_extract_user_role`: first matching keyword wins. -/
def roleScan : List (String × String) → String → String
  | [], _ => "user"
  | (k, r) :: rest, dl => if pyIn k dl then r else roleScan rest dl

/-- `_extract_user_role`. -/
def extract_user_role (description : String) : String :=
  roleScan USER_ROLES (pyLower description)

/-- Python `list.index` for the first occurrence of a word. -/
def pyIndex : List String → String → Nat
  | [], _ => 0
  | w :: ws, x => if w == x then 0 else pyIndex ws x + 1

/-- `_extract_action`: first action verb plus up to two following words as the
object phrase; `"use " + first word` (or `"use the system"`) when no verb. -/
def extract_action (description : String) : String :=
  let description_words := pySplitWS description
  let found_actions := description_words.filter (fun w => action_verbs.contains w)
  match found_actions with
  | [] => "use " ++ (match description_words with | [] => "the system" | w :: _ => w)
  | primary_action :: _ =>
    let action_index := pyIndex description_words primary_action
    if action_index < description_words.length - 1 then
      let object_part := pyJoin " " ((description_words.drop (action_index + 1)).take 2)
      pyStrip (primary_action ++ " " ++ object_part)
    else primary_action

/-- The scan-plus-defaults of `_extract_benefit`. -/
def benefitScan : List (String × String) → String → String
  | [], dl =>
    if ["create", "add", "new"].any (fun w => pyIn w dl) then
      "easily add new information to the system"
    else if ["update", "edit", "modify"].any (fun w => pyIn w dl) then
      "keep my information current and accurate"
    else if ["view", "see", "display"].any (fun w => pyIn w dl) then
      "access the information I need"
    else "accomplish my goals efficiently"
  | (k, b) :: rest, dl => if pyIn k dl then b else benefitScan rest dl

/-- `_extract_benefit`. -/
def extract_benefit (description : String) : String :=
  benefitScan benefits (pyLower description)

/-- `_extract_feature_name`: the catalog display name, or the first three words
of the description capitalized. -/
def extract_feature_name (description : String) (feature_type : String) : String :=
  match FEATURE_PATTERNS.find? (fun p => p.ftype == feature_type) with
  | some p => p.featureName
  | none => pyJoin " " (((pySplitWS description).take 3).map pyCapitalize)

/-- The components dict built by `_extract_story_components`. -/
structure Components where
  role : String
  action : String
  benefit : String
  feature_name : String
deriving DecidableEq

/-- `_extract_story_components`. -/
def extract_story_components (description : String) (feature_type : String) : Components :=
  { role := extract_user_role description,
    action := extract_action description,
    benefit := extract_benefit description,
    feature_name := extract_feature_name description feature_type }

/-- The single generic scenario synthesized for unmatched feature types. -/
def genericScenario (components : Components) : ScenarioT :=
  ⟨"Basic functionality", "I am using the system",
   "I " ++ components.action, "I should be able to " ++ components.benefit⟩

/-- The scenario list `_generate_gherkin_content` renders. -/
def scenariosFor (components : Components) (feature_type : String) : List ScenarioT :=
  match FEATURE_PATTERNS.find? (fun p => p.ftype == feature_type) with
  | some p => p.scenarios
  | none => [genericScenario components]

/-- The five lines appended per scenario by `_generate_gherkin_content`. -/
def scenarioLines (sc : ScenarioT) : List String :=
  ["  Scenario: " ++ sc.name,
   "    Given " ++ sc.givenStep,
   "    When " ++ sc.whenStep,
   "    Then " ++ sc.thenStep,
   ""]

/-- `_generate_gherkin_content`: header lines plus scenario blocks, joined with
newlines and right-stripped. -/
def generate_gherkin_content (components : Components) (feature_type : String) : String :=
  let scenarios := scenariosFor components feature_type
  let gherkin_lines :=
    ["Feature: " ++ components.feature_name,
     "  As a " ++ components.role,
     "  I want to " ++ components.action,
     "  So that I can " ++ components.benefit,
     ""] ++ (scenarios.map scenarioLines).flatten
  pyRstrip (pyJoin "\n" gherkin_lines)

/-- `_generate_acceptance_criteria`. -/
def generate_acceptance_criteria (components : Components) (feature_type : String) : List String :=
  let base :=
    match FEATURE_PATTERNS.find? (fun p => p.ftype == feature_type) with
    | some p =>
      p.scenarios.map (fun sc =>
        "Given " ++ sc.givenStep ++ ", when " ++ sc.whenStep ++ ", then " ++ sc.thenStep)
    | none => []
  base ++
    ["The " ++ components.role ++ " should be able to " ++ components.action ++ " successfully",
     "Appropriate error messages should be displayed for invalid inputs",
     "The feature should work across different browsers and devices"]

/-- Python dict `.get(key, default)` over a `String`-to-`Nat` table. -/
def lookupD : List (String × Nat) → String → Nat → Nat
  | [], _, d => d
  | (k, v) :: rest, key, d => if k == key then v else lookupD rest key d

/-- `_estimate_effort`: base points for the feature type, plus every matching
complexity-keyword bonus, bucketed onto the Fibonacci scale. -/
def estimate_effort (description : String) (feature_type : String) : Nat :=
  let base_effort := lookupD base_efforts feature_type 3
  let description_lower := pyLower description
  let complexity_bonus :=
    complexity_keywords.foldl
      (fun acc kw => if pyIn kw.1 description_lower then acc + kw.2 else acc) 0
  let total_effort := base_effort + complexity_bonus
  if total_effort ≤ 2 then 1
  else if total_effort ≤ 4 then 2
  else if total_effort ≤ 6 then 3
  else if total_effort ≤ 10 then 5
  else if total_effort ≤ 15 then 8
  else 13

/-- `_generate_story_id`; the wall-clock timestamp is an explicit argument. -/
def generate_story_id (now : String) : String := "STORY_" ++ now

/-- The result dict of `generate_gherkin_story`, as a structure holding exactly
the keys the source writes (it writes no `version` key). -/
structure StoryResult where
  story_id : String
  feature_description : String
  gherkin_content : String
  acceptance_criteria : List String
  estimated_effort : Nat
  story_type : String
  priority : String
  feature_type : String
  generated_at : String
  components : Components
deriving DecidableEq

/-- `generate_gherkin_story`: raises (`.error`) only for an empty or
whitespace-only description, otherwise runs the full pipeline. -/
def generate_story (feature_description : String) (story_type : StoryType)
    (priority : Priority) (now : String) : Except String StoryResult :=
  if feature_description == "" || pyStrip feature_description == "" then
    .error "Feature description cannot be empty"
  else
    let normalized_description := normalize_description feature_description
    let feature_type := detect_feature_type normalized_description
    let components := extract_story_components normalized_description feature_type
    let gherkin_content := generate_gherkin_content components feature_type
    let estimated_effort := estimate_effort normalized_description feature_type
    let acceptance_criteria := generate_acceptance_criteria components feature_type
    .ok { story_id := generate_story_id now,
          feature_description := feature_description,
          gherkin_content := gherkin_content,
          acceptance_criteria := acceptance_criteria,
          estimated_effort := estimated_effort,
          story_type := story_type.value,
          priority := priority.value,
          feature_type := feature_type,
          generated_at := now,
          components := components }

/-! ## Gherkin validator (`validate_gherkin`) -/

/-- A single ASCII apostrophe, used inside the validator issue strings. -/
def sq : String := String.mk [Char.ofNat 39]

def missingFeatureIssue : String := "Missing " ++ sq ++ "Feature:" ++ sq ++ " declaration"

def missingScenarioIssue : String := "Missing " ++ sq ++ "Scenario:" ++ sq ++ " declaration"

/-- The `scenario_started`/`has_given`/`has_when`/`has_then` flags of the
validator loop. -/
structure GwtState where
  started : Bool
  hasGiven : Bool
  hasWhen : Bool
  hasThen : Bool
deriving DecidableEq

/-- One iteration of the validator loop over a line. -/
def gwtStep (s : GwtState) (line : String) : GwtState :=
  let stripped := pyStrip line
  if pyStartswith stripped "Scenario:" then ⟨true, false, false, false⟩
  else if s.started then
    if pyStartswith stripped "Given" then { s with hasGiven := true }
    else if pyStartswith stripped "When" then { s with hasWhen := true }
    else if pyStartswith stripped "Then" then { s with hasThen := true }
    else s
  else s

/-- The validator loop over all lines. -/
def gwtScan (lines : List String) : GwtState :=
  lines.foldl gwtStep ⟨false, false, false, false⟩

/-- The names of the steps absent from the scanned flags, in Given/When/Then
order. -/
def missingStepsList (s : GwtState) : List String :=
  (if s.hasGiven then [] else ["Given"]) ++
  (if s.hasWhen then [] else ["When"]) ++
  (if s.hasThen then [] else ["Then"])

def missingStepsIssue (s : GwtState) : String :=
  "Missing step(s): " ++ pyJoin ", " (missingStepsList s)

/-- The source's `validate_gherkin_syntax`: `(is_valid, issues)`.  The three
checks append their issue and clear `is_valid` exactly as the source does, in
order. -/
def validate_gherkin (gherkin_content : String) : Bool × List String :=
  let lines := pySplitLines gherkin_content
  let has_feature := lines.any (fun l => pyStartswith (pyStrip l) "Feature:")
  let issues₁ := if has_feature then [] else [missingFeatureIssue]
  let is_valid₁ := has_feature
  let has_scenario := lines.any (fun l => pyStartswith (pyStrip l) "Scenario:")
  let issues₂ := issues₁ ++ (if has_scenario then [] else [missingScenarioIssue])
  let is_valid₂ := is_valid₁ && has_scenario
  let st := gwtScan lines
  let incomplete := st.started && !(st.hasGiven && st.hasWhen && st.hasThen)
  let issues₃ := issues₂ ++ (if incomplete then [missingStepsIssue st] else [])
  let is_valid₃ := is_valid₂ && !incomplete
  (is_valid₃, issues₃)

/-! ## Quality analyzer (`AIClient.analyze_story_quality`)

Python floats are modelled as rationals; the `analyzed_at` timestamp is
omitted (it is `datetime.utcnow()`, irrelevant to the analysis itself). -/

/-- The quality-analysis record, completeness checks inlined as fields. -/
structure QualityMetrics where
  quality_score : ℚ
  is_valid_gherkin : Bool
  syntax_issues : List String
  scenario_count : Nat
  line_count : Nat
  has_feature : Bool
  has_user_story : Bool
  has_scenarios : Bool
  has_given_when_then : Bool
deriving DecidableEq

/-- `analyze_story_quality`: runs the validator, deducts 0.1 per issue when
invalid, adds a 0.1 bonus for two or more scenarios, clamps to [0, 1]. -/
def analyze_story_quality (gherkin_content : String) : QualityMetrics :=
  let v := validate_gherkin gherkin_content
  let is_valid := v.1
  let issues := v.2
  let lines := pySplitLines gherkin_content
  let non_empty_lines := lines.filter (fun l => pyStrip l != "")
  let quality_score₀ : ℚ := 1
  let quality_score₁ :=
    if !is_valid then quality_score₀ - (issues.length : ℚ) * (1 / 10) else quality_score₀
  let scenario_count := (lines.filter (fun l => pyStartswith (pyStrip l) "Scenario:")).length
  let quality_score₂ :=
    if 2 ≤ scenario_count then quality_score₁ + 1 / 10 else quality_score₁
  let quality_score := max 0 (min 1 quality_score₂)
  { quality_score := quality_score,
    is_valid_gherkin := is_valid,
    syntax_issues := issues,
    scenario_count := scenario_count,
    line_count := non_empty_lines.length,
    has_feature := lines.any (fun l => pyIn "Feature:" l),
    has_user_story := lines.any (fun l => pyIn "As a" l),
    has_scenarios := decide (0 < scenario_count),
    has_given_when_then :=
      pyIn "Given" gherkin_content && pyIn "When" gherkin_content &&
        pyIn "Then" gherkin_content }

/-! ## Story records as Python dicts, and `refine_story`

`generate_gherkin_story` returns a dict literal and `refine_story` copies and
`update`s the original dict, so dict key-presence matters: records are
modelled as association lists over a small value type. -/

inductive PyVal where
  | vStr (s : String)
  | vInt (i : Int)
  | vStrList (l : List String)
  | vComps (c : Components)
deriving DecidableEq

/-- A Python dict holding a story record. -/
abbrev StoryDict := List (String × PyVal)

/-- Dict lookup (`d[k]` / `d.get(k)`). -/
def dictGet : StoryDict → String → Option PyVal
  | [], _ => none
  | (k, v) :: rest, key => if k == key then some v else dictGet rest key

/-- Dict write (`d[k] = v`): replace in place, or append a new key. -/
def dictSet : StoryDict → String → PyVal → StoryDict
  | [], key, val => [(key, val)]
  | (k, v) :: rest, key, val =>
    if k == key then (k, val) :: rest else (k, v) :: dictSet rest key val

/-- Python `dict.update` with a literal dict (keys written in order). -/
def dictUpdate (d : StoryDict) (kvs : List (String × PyVal)) : StoryDict :=
  kvs.foldl (fun acc kv => dictSet acc kv.1 kv.2) d

/-- The dict literal `generate_gherkin_story` returns, keys in source order
(note: no `version` key). -/
def storyToDict (r : StoryResult) : StoryDict :=
  [("story_id", .vStr r.story_id),
   ("feature_description", .vStr r.feature_description),
   ("gherkin_content", .vStr r.gherkin_content),
   ("acceptance_criteria", .vStrList r.acceptance_criteria),
   ("estimated_effort", .vInt r.estimated_effort),
   ("story_type", .vStr r.story_type),
   ("priority", .vStr r.priority),
   ("feature_type", .vStr r.feature_type),
   ("generated_at", .vStr r.generated_at),
   ("components", .vComps r.components)]

/-- `generate_gherkin_story` as seen by dict-level callers. -/
def generate_gherkin_story (feature_description : String) (story_type : StoryType)
    (priority : Priority) (now : String) : Except String StoryDict :=
  (generate_story feature_description story_type priority now).map storyToDict

/-- `refine_story`: re-generates from `feature_description + " " + feedback`
with the original type/priority, then merges the fresh
gherkin/criteria/effort into a copy of the original record, setting
`refinement_feedback`, `refined_at` and `version = get("version", 1) + 1`.
A missing `feature_description`/`story_type`/`priority` key, an unrecognized
enum value, or a non-integer `version` value raises in the source and is an
`.error` here. -/
def refine_story (story_id refinement_feedback : String) (original_story : StoryDict)
    (now : String) : Except String StoryDict :=
  match dictGet original_story "feature_description",
        dictGet original_story "story_type", dictGet original_story "priority" with
  | some (.vStr fd), some (.vStr stv), some (.vStr prv) =>
    match parseStoryType stv, parsePriority prv with
    | some story_type, some priority =>
      let combined_description := fd ++ " " ++ refinement_feedback
      match generate_story combined_description story_type priority now with
      | .error e => .error e
      | .ok refined_result =>
        match dictGet original_story "version" with
        | some (.vStr _) | some (.vStrList _) | some (.vComps _) =>
          .error "TypeError: version is not an integer"
        | some (.vInt v) =>
          .ok (dictUpdate original_story
            [("gherkin_content", .vStr refined_result.gherkin_content),
             ("acceptance_criteria", .vStrList refined_result.acceptance_criteria),
             ("estimated_effort", .vInt refined_result.estimated_effort),
             ("refinement_feedback", .vStr refinement_feedback),
             ("refined_at", .vStr now),
             ("version", .vInt (v + 1))])
        | none =>
          .ok (dictUpdate original_story
            [("gherkin_content", .vStr refined_result.gherkin_content),
             ("acceptance_criteria", .vStrList refined_result.acceptance_criteria),
             ("estimated_effort", .vInt refined_result.estimated_effort),
             ("refinement_feedback", .vStr refinement_feedback),
             ("refined_at", .vStr now),
             ("version", .vInt (1 + 1))])
    | _, _ => .error "ValueError: not a valid StoryType or Priority value"
  | _, _, _ => .error "KeyError"

/-! ## Helper lemmas -/

theorem foldl_if_add_eq_sum (p : String × Nat → Bool) :
    ∀ (l : List (String × Nat)) (acc : Nat),
      l.foldl (fun a kw => if p kw then a + kw.2 else a) acc =
        acc + ((l.filter p).map Prod.snd).sum := by
  intro l
  induction l with
  | nil => intro acc; simp
  | cons kw rest ih =>
    intro acc
    by_cases h : p kw = true
    · simp [List.foldl_cons, h, ih, Nat.add_assoc]
    · simp only [Bool.not_eq_true] at h
      simp [List.foldl_cons, h, ih]

/-- The spec-side Fibonacci bucketing of a summed effort total
(thresholds as stated in the spec). -/
def fibBucket (total : Nat) : Nat :=
  if total ≤ 2 then 1
  else if total ≤ 4 then 2
  else if total ≤ 6 then 3
  else if total ≤ 10 then 5
  else if total ≤ 15 then 8
  else 13

/-- The spec-side complexity bonus: the sum of every matching keyword bonus. -/
def complexityBonus (description : String) : Nat :=
  ((complexity_keywords.filter (fun kw => pyIn kw.1 (pyLower description))).map Prod.snd).sum

theorem estimate_effort_eq_fibBucket (description feature_type : String) :
    estimate_effort description feature_type =
      fibBucket (lookupD base_efforts feature_type 3 + complexityBonus description) := by
  unfold estimate_effort fibBucket complexityBonus
  simp only [foldl_if_add_eq_sum, Nat.zero_add]

theorem fibBucket_mem (total : Nat) : fibBucket total ∈ ([1, 2, 3, 5, 8, 13] : List Nat) := by
  unfold fibBucket
  split_ifs <;> simp

/-- C3: for every input string (including the empty string), `estimate_effort`
returns a value in {1,2,3,5,8,13}, and that value is the per-feature-type base
effort plus the sum of all matching complexity-keyword bonuses, bucketed by
the thresholds total ≤2→1, ≤4→2, ≤6→3, ≤10→5, ≤15→8, else 13. -/
theorem claim3_effort_scale_and_formula (description feature_type : String) :
    estimate_effort description feature_type ∈ ([1, 2, 3, 5, 8, 13] : List Nat) ∧
    estimate_effort description feature_type =
      fibBucket (lookupD base_efforts feature_type 3 + complexityBonus description) := by
  refine ⟨?_, estimate_effort_eq_fibBucket description feature_type⟩
  rw [estimate_effort_eq_fibBucket]
  exact fibBucket_mem _

/-! ## Classifier lemmas -/

/-- A catalog entry's keyword-match count against an input. -/
def scoreOf (p : FeaturePattern) (description : String) : Nat :=
  (p.keywords.filter (fun k => pyIn k (pyLower description))).length

/-- The `type_scores` items of `_detect_feature_type`, in catalog order. -/
def typeScores (description : String) : List (String × Nat) :=
  (FEATURE_PATTERNS.map (fun p => (p.ftype, scoreOf p description))).filter
    (fun q => decide (0 < q.2))

theorem detect_feature_type_eq_match (description : String) :
    detect_feature_type description =
      match typeScores description with
      | [] => "general"
      | q :: qs => (maxByScore q qs).1 := rfl

theorem maxByScore_mem : ∀ (l : List (String × Nat)) (b : String × Nat),
    maxByScore b l = b ∨ maxByScore b l ∈ l := by
  intro l
  induction l with
  | nil => intro b; left; rfl
  | cons q qs ih =>
    intro b
    unfold maxByScore
    by_cases h : b.2 < q.2
    · simp only [h, if_pos]
      rcases ih q with h1 | h1
      · right; rw [h1]; exact List.mem_cons_self _ _
      · right; exact List.mem_cons_of_mem _ h1
    · simp only [h, if_neg, not_false_iff]
      rcases ih b with h1 | h1
      · left; exact h1
      · right; exact List.mem_cons_of_mem _ h1

theorem maxByScore_ge : ∀ (l : List (String × Nat)) (b : String × Nat),
    b.2 ≤ (maxByScore b l).2 ∧ ∀ q ∈ l, q.2 ≤ (maxByScore b l).2 := by
  intro l
  induction l with
  | nil => intro b; exact ⟨Nat.le_refl _, by intro q hq; cases hq⟩
  | cons q qs ih =>
    intro b
    unfold maxByScore
    by_cases h : b.2 < q.2
    · simp only [h, if_pos]
      refine ⟨Nat.le_trans (Nat.le_of_lt h) (ih q).1, ?_⟩
      intro q' hq'
      rcases List.mem_cons.mp hq' with rfl | hq'
      · exact (ih q').1
      · exact (ih q).2 q' hq'
    · simp only [h, if_neg, not_false_iff]
      refine ⟨(ih b).1, ?_⟩
      intro q' hq'
      rcases List.mem_cons.mp hq' with rfl | hq'
      · exact Nat.le_trans (Nat.le_of_not_lt h) (ih b).1
      · exact (ih b).2 q' hq'

theorem ftype_mem_of_mem_patterns : ∀ p ∈ FEATURE_PATTERNS,
    p.ftype ∈ (["authentication", "crud", "api", "search", "file_management",
      "notification"] : List String) := by
  intro p hp
  simp only [FEATURE_PATTERNS, List.mem_cons, List.not_mem_nil, or_false] at hp
  rcases hp with rfl | rfl | rfl | rfl | rfl | rfl <;> simp

theorem ftype_ne_general_of_mem_patterns : ∀ p ∈ FEATURE_PATTERNS, p.ftype ≠ "general" := by
  intro p hp
  simp only [FEATURE_PATTERNS, List.mem_cons, List.not_mem_nil, or_false] at hp
  rcases hp with rfl | rfl | rfl | rfl | rfl | rfl <;> decide

theorem scoreOf_eq_zero_iff (p : FeaturePattern) (description : String) :
    scoreOf p description = 0 ↔ ∀ k ∈ p.keywords, pyIn k (pyLower description) = false := by
  unfold scoreOf
  rw [List.length_eq_zero, List.filter_eq_nil_iff]
  simp

theorem typeScores_eq_nil_iff (description : String) :
    typeScores description = [] ↔ ∀ p ∈ FEATURE_PATTERNS, scoreOf p description = 0 := by
  unfold typeScores
  rw [List.filter_eq_nil_iff]
  constructor
  · intro h p hp
    have := h (p.ftype, scoreOf p description) (List.mem_map_of_mem _ hp)
    simpa using this
  · intro h q hq
    rcases List.mem_map.mp hq with ⟨p, hp, rfl⟩
    simpa using (h p hp)

theorem mem_typeScores_iff (description : String) (x : String × Nat) :
    x ∈ typeScores description ↔
      (∃ p ∈ FEATURE_PATTERNS, x = (p.ftype, scoreOf p description)) ∧ 0 < x.2 := by
  unfold typeScores
  rw [List.mem_filter, List.mem_map]
  constructor
  · rintro ⟨⟨p, hp, hpx⟩, hdec⟩
    exact ⟨⟨p, hp, hpx.symm⟩, of_decide_eq_true hdec⟩
  · rintro ⟨⟨p, hp, hpx⟩, hpos⟩
    exact ⟨⟨p, hp, hpx.symm⟩, decide_eq_true hpos⟩

/-- C4: for every input string, `detect_feature_type` returns one of the seven
enumerated feature types; it returns `"general"` exactly when no catalog
keyword occurs (case-insensitively) in the input, and otherwise it returns the
type of a catalog entry whose keyword-match count is maximal. -/
theorem claim4_classifier_total (description : String) :
    detect_feature_type description ∈
      (["authentication", "crud", "api", "search", "file_management", "notification",
        "general"] : List String) ∧
    (detect_feature_type description = "general" ↔
      ∀ p ∈ FEATURE_PATTERNS, ∀ k ∈ p.keywords, pyIn k (pyLower description) = false) ∧
    (detect_feature_type description ≠ "general" →
      ∃ p ∈ FEATURE_PATTERNS, detect_feature_type description = p.ftype ∧
        ∀ q ∈ FEATURE_PATTERNS, scoreOf q description ≤ scoreOf p description) := by
  rw [detect_feature_type_eq_match]
  rcases hts : typeScores description with _ | ⟨q, qs⟩
  · simp only
    refine ⟨by simp, ?_, by intro h; exact absurd rfl h⟩
    constructor
    · intro _ p hp k hk
      have h0 := (typeScores_eq_nil_iff description).mp hts p hp
      exact ((scoreOf_eq_zero_iff p description).mp h0) k hk
    · intro _; trivial
  · simp only
    have hmem : maxByScore q qs ∈ typeScores description := by
      rw [hts]
      rcases maxByScore_mem qs q with h | h
      · rw [h]; exact List.mem_cons_self _ _
      · exact List.mem_cons_of_mem _ h
    rcases (mem_typeScores_iff description _).mp hmem with ⟨⟨p, hp, hx⟩, hpos⟩
    have hft : (maxByScore q qs).1 = p.ftype := by rw [hx]
    have hsc : (maxByScore q qs).2 = scoreOf p description := by rw [hx]
    refine ⟨?_, ?_, ?_⟩
    · rw [hft]
      have := ftype_mem_of_mem_patterns p hp
      simp only [List.mem_cons, List.not_mem_nil, or_false] at this ⊢
      tauto
    · constructor
      · intro hgen
        exact absurd (hft ▸ hgen) (ftype_ne_general_of_mem_patterns p hp)
      · intro hall
        have : typeScores description = [] := by
          rw [typeScores_eq_nil_iff]
          intro p' hp'
          exact (scoreOf_eq_zero_iff p' description).mpr (hall p' hp')
        rw [hts] at this
        cases this
    · intro _
      refine ⟨p, hp, hft, ?_⟩
      intro q' hq'
      by_cases hq'0 : 0 < scoreOf q' description
      · have hq'mem : (q'.ftype, scoreOf q' description) ∈ typeScores description :=
          (mem_typeScores_iff description _).mpr ⟨⟨q', hq', rfl⟩, hq'0⟩
        rw [hts] at hq'mem
        have hle : (q'.ftype, scoreOf q' description).2 ≤ (maxByScore q qs).2 := by
          rcases List.mem_cons.mp hq'mem with heq | hmem'
          · rw [← heq] at *
            exact (maxByScore_ge qs _).1
          · exact (maxByScore_ge qs q).2 _ hmem'
        rw [hsc] at hle
        exact hle
      · have : scoreOf q' description = 0 := Nat.eq_zero_of_not_pos hq'0
        rw [this]
        exact Nat.zero_le _

/-! ## Validator and quality-analyzer lemmas -/

theorem validate_valid_iff (g : String) :
    (validate_gherkin g).1 = true ↔ (validate_gherkin g).2 = [] := by
  unfold validate_gherkin
  simp only
  cases hf : (pySplitLines g).any (fun l => pyStartswith (pyStrip l) "Feature:") <;>
    cases hs : (pySplitLines g).any (fun l => pyStartswith (pyStrip l) "Scenario:") <;>
      cases hi : ((gwtScan (pySplitLines g)).started &&
          !((gwtScan (pySplitLines g)).hasGiven && (gwtScan (pySplitLines g)).hasWhen &&
            (gwtScan (pySplitLines g)).hasThen)) <;>
        simp [hf, hs, hi]

/-- The scenario-count heuristic of the analyzer. -/
def scenarioCount (g : String) : Nat :=
  ((pySplitLines g).filter (fun l => pyStartswith (pyStrip l) "Scenario:")).length

/-- C7: for every input string the quality score lies in [0, 1] and equals the
clamp to [0, 1] of 1 minus 0.1 per validator issue plus a 0.1 bonus exactly
when at least two lines start with `Scenario:`. -/
theorem claim7_quality_score (g : String) :
    (analyze_story_quality g).quality_score =
      max 0 (min 1 (1 - ((validate_gherkin g).2.length : ℚ) * (1 / 10) +
        (if 2 ≤ scenarioCount g then (1 / 10 : ℚ) else 0))) ∧
    0 ≤ (analyze_story_quality g).quality_score ∧
    (analyze_story_quality g).quality_score ≤ 1 := by
  refine ⟨?_, ?_, ?_⟩
  · unfold analyze_story_quality scenarioCount
    simp only
    have hcong : ∀ x y : ℚ, x = y → max 0 (min 1 x) = max 0 (min 1 y) := by
      intro x y h; rw [h]
    apply hcong
    by_cases hb : 2 ≤ ((pySplitLines g).filter
        (fun l => pyStartswith (pyStrip l) "Scenario:")).length
    · rw [if_pos hb, if_pos hb]
      cases hv : (validate_gherkin g).1
      · simp [hv]
      · have h0 : (validate_gherkin g).2 = [] := (validate_valid_iff g).mp hv
        simp [hv, h0]
    · rw [if_neg hb, if_neg hb]
      cases hv : (validate_gherkin g).1
      · simp [hv]
      · have h0 : (validate_gherkin g).2 = [] := (validate_valid_iff g).mp hv
        simp [hv, h0]
  · unfold analyze_story_quality
    simp only
    exact le_max_left 0 _
  · unfold analyze_story_quality
    simp only
    exact max_le (by norm_num) (min_le_left 1 _)

/-! ## Generation pipeline lemmas -/

/-- The record the successful branch of `generate_gherkin_story` builds. -/
def builtStory (fd : String) (st : StoryType) (pr : Priority) (now : String) : StoryResult :=
  let normalized_description := normalize_description fd
  let feature_type := detect_feature_type normalized_description
  let components := extract_story_components normalized_description feature_type
  { story_id := generate_story_id now,
    feature_description := fd,
    gherkin_content := generate_gherkin_content components feature_type,
    acceptance_criteria := generate_acceptance_criteria components feature_type,
    estimated_effort := estimate_effort normalized_description feature_type,
    story_type := st.value,
    priority := pr.value,
    feature_type := feature_type,
    generated_at := now,
    components := components }

theorem pyStrip_empty : pyStrip "" = "" := rfl

theorem generate_story_ok (fd : String) (st : StoryType) (pr : Priority) (now : String)
    (h : pyStrip fd ≠ "") : generate_story fd st pr now = .ok (builtStory fd st pr now) := by
  unfold generate_story
  have hfd : fd ≠ "" := by
    intro heq
    exact h (heq ▸ pyStrip_empty)
  rw [if_neg]
  · rfl
  · simp [hfd, h]

theorem generate_story_error (fd : String) (st : StoryType) (pr : Priority) (now : String)
    (h : pyStrip fd = "") :
    generate_story fd st pr now = .error "Feature description cannot be empty" := by
  unfold generate_story
  rw [if_pos]
  simp [h]

/-- C8: `generate_gherkin_story` raises exactly on an empty or whitespace-only
feature description; every other input yields a complete story result, since
every extraction sub-step is total. -/
theorem claim8_raises_iff_blank (fd : String) (st : StoryType) (pr : Priority) (now : String) :
    (pyStrip fd = "" →
      generate_story fd st pr now = .error "Feature description cannot be empty") ∧
    (pyStrip fd ≠ "" → ∃ r, generate_story fd st pr now = .ok r) := by
  constructor
  · intro h
    exact generate_story_error fd st pr now h
  · intro h
    exact ⟨builtStory fd st pr now, generate_story_ok fd st pr now h⟩

/-- C2 counterexample: a record returned by a generation call carries no
`version` key at all — looking `"version"` up in the returned dict yields
`none`. -/
theorem claim2_counterexample :
    (generate_gherkin_story "User authentication with social login" .story .medium
        "2025-07-26T12:00:00").map (fun d => dictGet d "version") = .ok none ∧
    (generate_gherkin_story "User authentication with social login" .story .medium
        "2025-07-26T12:00:00").map (fun d => (d.map Prod.fst).contains "version") = .ok false := by
  constructor
  · rfl
  · rfl

/-- C2 (amended): every record returned by a generation call holds exactly the
keys story_id, feature_description (the unmodified input), gherkin_content,
acceptance_criteria, estimated_effort, story_type, priority, feature_type,
generated_at and components — and no `version` key; a version number is first
added by a refinement call. -/
theorem claim2_amended_no_version_key (fd : String) (st : StoryType) (pr : Priority)
    (now : String) (h : pyStrip fd ≠ "") :
    ∃ r, generate_gherkin_story fd st pr now = .ok (storyToDict r) ∧
      (storyToDict r).map Prod.fst =
        ["story_id", "feature_description", "gherkin_content", "acceptance_criteria",
         "estimated_effort", "story_type", "priority", "feature_type", "generated_at",
         "components"] ∧
      dictGet (storyToDict r) "version" = none ∧
      dictGet (storyToDict r) "feature_description" = some (.vStr fd) := by
  refine ⟨builtStory fd st pr now, ?_, rfl, rfl, rfl⟩
  unfold generate_gherkin_story
  rw [generate_story_ok fd st pr now h]
  rfl

theorem claim2_amended_witness :
    pyStrip "Search functionality for products" ≠ "" ∧
    ∃ r, generate_gherkin_story "Search functionality for products" .story .medium
          "2025-07-26T12:00:00" = .ok (storyToDict r) ∧
      (storyToDict r).map Prod.fst =
        ["story_id", "feature_description", "gherkin_content", "acceptance_criteria",
         "estimated_effort", "story_type", "priority", "feature_type", "generated_at",
         "components"] ∧
      dictGet (storyToDict r) "version" = none ∧
      dictGet (storyToDict r) "feature_description" =
        some (.vStr "Search functionality for products") :=
  ⟨by decide, claim2_amended_no_version_key "Search functionality for products" .story .medium
    "2025-07-26T12:00:00" (by decide)⟩

set_option maxRecDepth 8000 in
/-- C1 counterexample: for `"User authentication with social login"` the
pipeline returns `estimated_effort = 5`, not `8`: the normalized description
contains the complexity keyword `"authentication"`, so the total is
8 + 2 = 10, which buckets to 5. -/
theorem claim1_counterexample :
    (generate_story "User authentication with social login" .story .medium
        "20250726_120000").map (fun r => r.estimated_effort) = .ok 5 ∧
    (generate_story "User authentication with social login" .story .medium
        "20250726_120000").map (fun r => r.estimated_effort) ≠ .ok 8 := by
  have h5 : (generate_story "User authentication with social login" .story .medium
      "20250726_120000").map (fun r => r.estimated_effort) = .ok 5 := by rfl
  refine ⟨h5, ?_⟩
  rw [h5]
  intro h
  injection h with h
  exact absurd h (by decide)

set_option maxRecDepth 8000 in
/-- C1 (amended): generating a story for `"User authentication with social
login"` yields `feature_type = "authentication"`, `estimated_effort = 5` (base
8 for authentication plus the +2 `"authentication"` complexity bonus gives a
total of 10, bucketed to 5), and Gherkin text containing both canned
authentication scenario lines. -/
theorem claim1_amended_round_trip :
    (generate_story "User authentication with social login" .story .medium
        "20250726_120000").map
      (fun r => (r.feature_type, r.estimated_effort,
        pyIn "Scenario: Successful authentication" r.gherkin_content,
        pyIn "Scenario: Invalid credentials" r.gherkin_content)) =
      .ok ("authentication", 5, true, true) := by
  rfl

/-! ## Dict lemmas and the refinement frame property -/

theorem dictGet_dictSet_self (d : StoryDict) (k : String) (v : PyVal) :
    dictGet (dictSet d k v) k = some v := by
  induction d with
  | nil => simp [dictSet, dictGet]
  | cons kv rest ih =>
    by_cases h : kv.1 == k
    · simp [dictSet, dictGet, h]
    · simp [dictSet, dictGet, h, ih]

theorem dictGet_dictSet_ne (d : StoryDict) (k key : String) (v : PyVal) (h : k ≠ key) :
    dictGet (dictSet d key v) k = dictGet d k := by
  have hkk : (key == k) = false := beq_eq_false_iff_ne.mpr (Ne.symm h)
  induction d with
  | nil => simp [dictSet, dictGet, hkk]
  | cons kv rest ih =>
    by_cases hk : (kv.1 == key) = true
    · have h1 : kv.1 = key := beq_iff_eq.mp hk
      have h2 : (kv.1 == k) = false := by rw [h1]; exact hkk
      simp [dictSet, dictGet, hk, h2]
    · by_cases hk2 : (kv.1 == k) = true <;> simp [dictSet, dictGet, hk, hk2, ih]

theorem exists_nonspace_of_pyStrip_ne_empty (s : String) (h : pyStrip s ≠ "") :
    ∃ c ∈ s.data, pyIsSpace c = false := by
  by_contra hall
  push_neg at hall
  apply h
  have hws : ∀ c ∈ s.data, pyIsSpace c = true := by
    intro c hc
    have := hall c hc
    revert this
    cases pyIsSpace c <;> simp
  have h1 : lstripL s.data = [] := List.dropWhile_eq_nil_iff.mpr hws
  show String.mk (pyStripL s.data) = ""
  rw [pyStripL, h1]
  rfl

theorem mem_dropWhile_of_not (p : Char → Bool) :
    ∀ (l : List Char) (c : Char), c ∈ l → p c = false → c ∈ l.dropWhile p := by
  intro l
  induction l with
  | nil => intro c hc; cases hc
  | cons x xs ih =>
    intro c hc hp
    rcases List.mem_cons.mp hc with rfl | hc
    · rw [List.dropWhile_cons, if_neg (by simp [hp])]
      exact List.mem_cons_self _ _
    · rw [List.dropWhile_cons]
      split
      · exact ih c hc hp
      · exact List.mem_cons_of_mem _ hc

theorem pyStrip_ne_empty_of_nonspace (s : String) (c : Char) (hc : c ∈ s.data)
    (hp : pyIsSpace c = false) : pyStrip s ≠ "" := by
  intro h
  have h1 : c ∈ lstripL s.data := mem_dropWhile_of_not pyIsSpace s.data c hc hp
  have h2 : c ∈ pyStripL s.data := by
    rw [pyStripL, rstripL]
    rw [List.mem_reverse]
    exact mem_dropWhile_of_not pyIsSpace _ c (by rwa [List.mem_reverse]) hp
  have h3 : pyStripL s.data = [] := by
    have := congrArg String.data h
    simpa [pyStrip] using this
  rw [h3] at h2
  cases h2

/-- C9: refining an original story record that carries a `version` field
preserves `story_id`, bumps `version` by one, sets `refinement_feedback` and
`refined_at`, replaces `gherkin_content`, `acceptance_criteria` and
`estimated_effort` with freshly generated values, and leaves every other field
of the record unchanged. -/
theorem claim9_refine_frame
    (story_id feedback now : String) (orig : StoryDict)
    (d stv prv : String) (st : StoryType) (pr : Priority) (v : Int)
    (hd : dictGet orig "feature_description" = some (.vStr d))
    (hst : dictGet orig "story_type" = some (.vStr stv))
    (hpr : dictGet orig "priority" = some (.vStr prv))
    (hstv : parseStoryType stv = some st)
    (hprv : parsePriority prv = some pr)
    (hv : dictGet orig "version" = some (.vInt v))
    (hne : pyStrip d ≠ "") :
    ∃ res, refine_story story_id feedback orig now = .ok res ∧
      dictGet res "story_id" = dictGet orig "story_id" ∧
      dictGet res "version" = some (.vInt (v + 1)) ∧
      dictGet res "refinement_feedback" = some (.vStr feedback) ∧
      dictGet res "refined_at" = some (.vStr now) ∧
      (∃ fresh, generate_story (d ++ " " ++ feedback) st pr now = .ok fresh ∧
        dictGet res "gherkin_content" = some (.vStr fresh.gherkin_content) ∧
        dictGet res "acceptance_criteria" = some (.vStrList fresh.acceptance_criteria) ∧
        dictGet res "estimated_effort" = some (.vInt fresh.estimated_effort)) ∧
      (∀ k, k ∉ (["gherkin_content", "acceptance_criteria", "estimated_effort",
          "refinement_feedback", "refined_at", "version"] : List String) →
        dictGet res k = dictGet orig k) := by
  have hcomb : pyStrip (d ++ " " ++ feedback) ≠ "" := by
    rcases exists_nonspace_of_pyStrip_ne_empty d hne with ⟨c, hc, hp⟩
    refine pyStrip_ne_empty_of_nonspace _ c ?_ hp
    simp [String.data_append, hc]
  have hgen := generate_story_ok (d ++ " " ++ feedback) st pr now hcomb
  have hres : refine_story story_id feedback orig now =
      .ok (dictUpdate orig
        [("gherkin_content", .vStr (builtStory (d ++ " " ++ feedback) st pr now).gherkin_content),
         ("acceptance_criteria",
           .vStrList (builtStory (d ++ " " ++ feedback) st pr now).acceptance_criteria),
         ("estimated_effort", .vInt (builtStory (d ++ " " ++ feedback) st pr now).estimated_effort),
         ("refinement_feedback", .vStr feedback),
         ("refined_at", .vStr now),
         ("version", .vInt (v + 1))]) := by
    unfold refine_story
    rw [hd, hst, hpr]
    simp only [hstv, hprv, hgen, hv]
  have hupd : dictUpdate orig
      [("gherkin_content", .vStr (builtStory (d ++ " " ++ feedback) st pr now).gherkin_content),
       ("acceptance_criteria",
         .vStrList (builtStory (d ++ " " ++ feedback) st pr now).acceptance_criteria),
       ("estimated_effort", .vInt (builtStory (d ++ " " ++ feedback) st pr now).estimated_effort),
       ("refinement_feedback", .vStr feedback),
       ("refined_at", .vStr now),
       ("version", .vInt (v + 1))] =
      dictSet (dictSet (dictSet (dictSet (dictSet (dictSet orig
        "gherkin_content" (.vStr (builtStory (d ++ " " ++ feedback) st pr now).gherkin_content))
        "acceptance_criteria"
          (.vStrList (builtStory (d ++ " " ++ feedback) st pr now).acceptance_criteria))
        "estimated_effort" (.vInt (builtStory (d ++ " " ++ feedback) st pr now).estimated_effort))
        "refinement_feedback" (.vStr feedback))
        "refined_at" (.vStr now))
        "version" (.vInt (v + 1)) := rfl
  refine ⟨_, hres, ?_, ?_, ?_, ?_, ⟨builtStory (d ++ " " ++ feedback) st pr now, hgen, ?_, ?_, ?_⟩, ?_⟩
  · rw [hupd]
    rw [dictGet_dictSet_ne _ _ _ _ (by decide), dictGet_dictSet_ne _ _ _ _ (by decide),
      dictGet_dictSet_ne _ _ _ _ (by decide), dictGet_dictSet_ne _ _ _ _ (by decide),
      dictGet_dictSet_ne _ _ _ _ (by decide), dictGet_dictSet_ne _ _ _ _ (by decide)]
  · rw [hupd, dictGet_dictSet_self]
  · rw [hupd, dictGet_dictSet_ne _ _ _ _ (by decide), dictGet_dictSet_ne _ _ _ _ (by decide),
      dictGet_dictSet_self]
  · rw [hupd, dictGet_dictSet_ne _ _ _ _ (by decide), dictGet_dictSet_self]
  · rw [hupd, dictGet_dictSet_ne _ _ _ _ (by decide), dictGet_dictSet_ne _ _ _ _ (by decide),
      dictGet_dictSet_ne _ _ _ _ (by decide), dictGet_dictSet_ne _ _ _ _ (by decide),
      dictGet_dictSet_ne _ _ _ _ (by decide), dictGet_dictSet_self]
  · rw [hupd, dictGet_dictSet_ne _ _ _ _ (by decide), dictGet_dictSet_ne _ _ _ _ (by decide),
      dictGet_dictSet_ne _ _ _ _ (by decide), dictGet_dictSet_ne _ _ _ _ (by decide),
      dictGet_dictSet_self]
  · rw [hupd, dictGet_dictSet_ne _ _ _ _ (by decide), dictGet_dictSet_ne _ _ _ _ (by decide),
      dictGet_dictSet_ne _ _ _ _ (by decide), dictGet_dictSet_self]
  · intro k hk
    simp only [List.mem_cons, List.not_mem_nil, or_false, not_or] at hk
    obtain ⟨h1, h2, h3, h4, h5, h6⟩ := hk
    rw [hupd, dictGet_dictSet_ne _ _ _ _ h6, dictGet_dictSet_ne _ _ _ _ h5,
      dictGet_dictSet_ne _ _ _ _ h4, dictGet_dictSet_ne _ _ _ _ h3,
      dictGet_dictSet_ne _ _ _ _ h2, dictGet_dictSet_ne _ _ _ _ h1]

/-- The concrete original record the C9 witness refines. -/
def refineWitnessOriginal : StoryDict :=
  [("story_id", .vStr "STORY_20250726_120000"),
   ("feature_description", .vStr "user login page"),
   ("gherkin_content", .vStr "Feature: old"),
   ("acceptance_criteria", .vStrList ["old criterion"]),
   ("estimated_effort", .vInt 8),
   ("story_type", .vStr "story"),
   ("priority", .vStr "medium"),
   ("feature_type", .vStr "authentication"),
   ("generated_at", .vStr "2025-07-26T12:00:00"),
   ("components", .vComps ⟨"user", "login page", "x", "User Authentication"⟩),
   ("version", .vInt 3)]

theorem claim9_refine_frame_witness :
    pyStrip "user login page" ≠ "" ∧
    ∃ res, refine_story "STORY_20250726_120000" "also add admin dashboard"
        refineWitnessOriginal "2025-07-27T09:00:00" = .ok res ∧
      dictGet res "story_id" = dictGet refineWitnessOriginal "story_id" ∧
      dictGet res "version" = some (.vInt (3 + 1)) ∧
      dictGet res "refinement_feedback" = some (.vStr "also add admin dashboard") ∧
      dictGet res "refined_at" = some (.vStr "2025-07-27T09:00:00") ∧
      (∃ fresh, generate_story ("user login page" ++ " " ++ "also add admin dashboard")
          .story .medium "2025-07-27T09:00:00" = .ok fresh ∧
        dictGet res "gherkin_content" = some (.vStr fresh.gherkin_content) ∧
        dictGet res "acceptance_criteria" = some (.vStrList fresh.acceptance_criteria) ∧
        dictGet res "estimated_effort" = some (.vInt fresh.estimated_effort)) ∧
      (∀ k, k ∉ (["gherkin_content", "acceptance_criteria", "estimated_effort",
          "refinement_feedback", "refined_at", "version"] : List String) →
        dictGet res k = dictGet refineWitnessOriginal k) :=
  ⟨by decide,
   claim9_refine_frame "STORY_20250726_120000" "also add admin dashboard" "2025-07-27T09:00:00"
     refineWitnessOriginal "user login page" "story" "medium" .story .medium 3
     rfl rfl rfl rfl rfl rfl (by decide)⟩

/-! ## The validator loop versus the last scenario block -/

/-- Does a line (after trimming) start a scenario? -/
def isScenarioLine (l : String) : Bool := pyStartswith (pyStrip l) "Scenario:"

/-- The lines strictly after the last `Scenario:` line (the whole list when no
line starts a scenario). -/
def lastScenarioBlock (lines : List String) : List String :=
  (lines.reverse.takeWhile (fun l => !isScenarioLine l)).reverse

theorem leadsWith_head_excl {a b : Char} (hab : a ≠ b) (p q : List Char) :
    ∀ l, leadsWith (a :: p) l = true → leadsWith (b :: q) l = false := by
  intro l h
  cases l with
  | nil => cases h
  | cons c cs =>
    simp only [leadsWith, Bool.and_eq_true, beq_iff_eq] at h
    rcases h with ⟨rfl, _⟩
    have hb : (b == a) = false := beq_eq_false_iff_ne.mpr (Ne.symm hab)
    simp [leadsWith, hb]

theorem pyStartswith_excl (s : String) (pre₁ pre₂ : String) (a b : Char) (p q : List Char)
    (h1 : pre₁.data = a :: p) (h2 : pre₂.data = b :: q) (hab : a ≠ b) :
    pyStartswith s pre₁ = true → pyStartswith s pre₂ = false := by
  intro h
  unfold pyStartswith at h ⊢
  rw [h1] at h
  rw [h2]
  exact leadsWith_head_excl hab p q s.data h

theorem gwtScan_append (ls : List String) (x : String) :
    gwtScan (ls ++ [x]) = gwtStep (gwtScan ls) x := by
  simp [gwtScan, List.foldl_append]

theorem lastScenarioBlock_append (ls : List String) (x : String) :
    lastScenarioBlock (ls ++ [x]) =
      if isScenarioLine x then [] else lastScenarioBlock ls ++ [x] := by
  unfold lastScenarioBlock
  rw [List.reverse_append]
  simp only [List.reverse_singleton, List.singleton_append, List.takeWhile_cons]
  cases hx : isScenarioLine x
  · simp
  · simp

theorem gwtScan_characterization (lines : List String) :
    ((gwtScan lines).started = lines.any isScenarioLine) ∧
    (lines.any isScenarioLine = false → gwtScan lines = ⟨false, false, false, false⟩) ∧
    (lines.any isScenarioLine = true →
      (gwtScan lines).hasGiven =
        (lastScenarioBlock lines).any (fun l => pyStartswith (pyStrip l) "Given") ∧
      (gwtScan lines).hasWhen =
        (lastScenarioBlock lines).any (fun l => pyStartswith (pyStrip l) "When") ∧
      (gwtScan lines).hasThen =
        (lastScenarioBlock lines).any (fun l => pyStartswith (pyStrip l) "Then")) := by
  induction lines using List.reverseRecOn with
  | nil => exact ⟨rfl, fun _ => rfl, fun h => by cases h⟩
  | append_singleton ls x ih =>
    rw [gwtScan_append, List.any_append, lastScenarioBlock_append]
    simp only [List.any_cons, List.any_nil, Bool.or_false]
    cases hx : isScenarioLine x
    · have hxs : pyStartswith (pyStrip x) "Scenario:" = false := hx
      cases hany : ls.any isScenarioLine
      · have hinit : gwtScan ls = ⟨false, false, false, false⟩ := ih.2.1 hany
        rw [hinit]
        refine ⟨by simp [gwtStep, hxs], fun _ => by simp [gwtStep, hxs], fun h => ?_⟩
        simp at h
      · obtain ⟨hg, hw, ht⟩ := ih.2.2 hany
        have hstart : (gwtScan ls).started = true := ih.1.trans hany
        refine ⟨?_, ?_, fun _ => ?_⟩
        · cases hG : pyStartswith (pyStrip x) "Given" <;>
            cases hW : pyStartswith (pyStrip x) "When" <;>
              cases hT : pyStartswith (pyStrip x) "Then" <;>
                simp [gwtStep, hxs, hstart, hG, hW, hT]
        · intro h
          simp at h
        · rw [if_neg (by simp)]
          simp only [List.any_append, List.any_cons, List.any_nil, Bool.or_false]
          cases hG : pyStartswith (pyStrip x) "Given"
          · cases hW : pyStartswith (pyStrip x) "When"
            · cases hT : pyStartswith (pyStrip x) "Then" <;>
                simp [gwtStep, hxs, hstart, hG, hW, hT, hg, hw, ht]
            · have hT : pyStartswith (pyStrip x) "Then" = false :=
                pyStartswith_excl _ "When" "Then" 'W' 'T' _ _ rfl rfl (by decide) hW
              simp [gwtStep, hxs, hstart, hG, hW, hT, hg, hw, ht]
          · have hW : pyStartswith (pyStrip x) "When" = false :=
              pyStartswith_excl _ "Given" "When" 'G' 'W' _ _ rfl rfl (by decide) hG
            have hT : pyStartswith (pyStrip x) "Then" = false :=
              pyStartswith_excl _ "Given" "Then" 'G' 'T' _ _ rfl rfl (by decide) hG
            simp [gwtStep, hxs, hstart, hG, hW, hT, hg, hw, ht]
    · have hxs : pyStartswith (pyStrip x) "Scenario:" = true := hx
      refine ⟨by simp [gwtStep, hxs], fun h => by simp at h, fun _ => ?_⟩
      rw [if_pos rfl]
      simp [gwtStep, hxs]

theorem leadsWith_append_self : ∀ (p t : List Char), leadsWith p (p ++ t) = true := by
  intro p
  induction p with
  | nil => intro t; rfl
  | cons a as ih => intro t; simp [leadsWith, ih]

theorem missing_issue_starts (x : String) :
    pyStartswith ("Missing step(s): " ++ x) "Missing step(s):" = true := by
  unfold pyStartswith
  rw [String.data_append]
  have h : ("Missing step(s): " : String).data = ("Missing step(s):" : String).data ++ [' '] := rfl
  rw [h, List.append_assoc]
  exact leadsWith_append_self _ _

/-- C5: the validator reports `is_valid = true` exactly when its issue list is
empty; text with no trimmed line starting with `Feature:` is invalid with the
missing-feature issue; and text with a `Feature:` line, a `Scenario:` line and
Given/When/Then lines after the last `Scenario:` line is valid with no
issues. -/
theorem claim5_validator_soundness (g : String) :
    ((validate_gherkin g).1 = true ↔ (validate_gherkin g).2 = []) ∧
    ((pySplitLines g).any (fun l => pyStartswith (pyStrip l) "Feature:") = false →
      (validate_gherkin g).1 = false ∧
      missingFeatureIssue ∈ (validate_gherkin g).2) ∧
    ((pySplitLines g).any (fun l => pyStartswith (pyStrip l) "Feature:") = true →
      (pySplitLines g).any (fun l => pyStartswith (pyStrip l) "Scenario:") = true →
      (lastScenarioBlock (pySplitLines g)).any
        (fun l => pyStartswith (pyStrip l) "Given") = true →
      (lastScenarioBlock (pySplitLines g)).any
        (fun l => pyStartswith (pyStrip l) "When") = true →
      (lastScenarioBlock (pySplitLines g)).any
        (fun l => pyStartswith (pyStrip l) "Then") = true →
      validate_gherkin g = (true, [])) := by
  refine ⟨validate_valid_iff g, ?_, ?_⟩
  · intro hf
    unfold validate_gherkin
    simp only
    rw [hf]
    simp
  · intro hf hs hG hW hT
    have hbr := gwtScan_characterization (pySplitLines g)
    have hs' : (pySplitLines g).any isScenarioLine = true := hs
    obtain ⟨hg, hw, ht⟩ := hbr.2.2 hs'
    have hg' : (gwtScan (pySplitLines g)).hasGiven = true := hg.trans hG
    have hw' : (gwtScan (pySplitLines g)).hasWhen = true := hw.trans hW
    have ht' : (gwtScan (pySplitLines g)).hasThen = true := ht.trans hT
    have hst : (gwtScan (pySplitLines g)).started = true := hbr.1.trans hs'
    unfold validate_gherkin
    simp only
    rw [hf, hs]
    simp [hst, hg', hw', ht']

/-- The step names absent (per trimmed-prefix scan) from a block of lines, in
Given/When/Then order. -/
def blockMissing (blk : List String) : List String :=
  (if blk.any (fun l => pyStartswith (pyStrip l) "Given") then [] else ["Given"]) ++
  (if blk.any (fun l => pyStartswith (pyStrip l) "When") then [] else ["When"]) ++
  (if blk.any (fun l => pyStartswith (pyStrip l) "Then") then [] else ["Then"])

/-- C6: for any text with a `Scenario:` line, the validator emits a
`Missing step(s)` issue exactly when a Given/When/Then-prefixed line is absent
between the last `Scenario:` line and the end, naming precisely the absent
steps — earlier scenario blocks play no role. -/
theorem claim6_missing_steps_last_block_only (g : String)
    (hs : (pySplitLines g).any (fun l => pyStartswith (pyStrip l) "Scenario:") = true) :
    (validate_gherkin g).2.filter (fun i => pyStartswith i "Missing step(s):") =
      if blockMissing (lastScenarioBlock (pySplitLines g)) = [] then []
      else ["Missing step(s): " ++
        pyJoin ", " (blockMissing (lastScenarioBlock (pySplitLines g)))] := by
  have hbr := gwtScan_characterization (pySplitLines g)
  have hs' : (pySplitLines g).any isScenarioLine = true := hs
  obtain ⟨hg, hw, ht⟩ := hbr.2.2 hs'
  have hst : (gwtScan (pySplitLines g)).started = true := hbr.1.trans hs'
  have hpf : pyStartswith missingFeatureIssue "Missing step(s):" = false := by decide
  unfold validate_gherkin blockMissing
  simp only [missingStepsIssue, missingStepsList]
  rw [hs, hst, hg, hw, ht]
  cases hG : (lastScenarioBlock (pySplitLines g)).any
      (fun l => pyStartswith (pyStrip l) "Given") <;>
    cases hW : (lastScenarioBlock (pySplitLines g)).any
        (fun l => pyStartswith (pyStrip l) "When") <;>
      cases hT : (lastScenarioBlock (pySplitLines g)).any
          (fun l => pyStartswith (pyStrip l) "Then") <;>
        cases hF : (pySplitLines g).any (fun l => pyStartswith (pyStrip l) "Feature:") <;>
          simp [List.filter_append, hpf, missing_issue_starts]

theorem claim6_witness :
    (pySplitLines "Scenario: checkout\nGiven a cart").any
      (fun l => pyStartswith (pyStrip l) "Scenario:") = true ∧
    (validate_gherkin "Scenario: checkout\nGiven a cart").2.filter
      (fun i => pyStartswith i "Missing step(s):") = ["Missing step(s): When, Then"] :=
  ⟨by decide,
   (claim6_missing_steps_last_block_only "Scenario: checkout\nGiven a cart" (by decide)).trans
     (by decide)⟩

/-! ## String-shape lemmas for the rendered Gherkin document -/

theorem rstripL_cons_nonws (c : Char) (y : List Char) (hc : pyIsSpace c = false) :
    rstripL (c :: y) = c :: rstripL y := by
  unfold rstripL
  rw [show (c :: y).reverse = y.reverse ++ [c] by simp, List.dropWhile_append]
  cases hny : (y.reverse.dropWhile pyIsSpace).isEmpty
  · simp [hny]
  · simp only [hny, if_pos]
    rw [List.isEmpty_iff] at hny
    rw [hny]
    simp [List.dropWhile_cons, hc]

theorem rstripL_append_nonws (pfx : List Char) (z : List Char)
    (h : ∀ x ∈ pfx, pyIsSpace x = false) : rstripL (pfx ++ z) = pfx ++ rstripL z := by
  induction pfx with
  | nil => simp
  | cons c cs ih =>
    rw [List.cons_append, rstripL_cons_nonws c _ (h c (List.mem_cons_self _ _)),
      ih (fun x hx => h x (List.mem_cons_of_mem _ hx))]
    rfl

theorem rstripL_append_ws_single (x : List Char) (c : Char) (hc : pyIsSpace c = true) :
    rstripL (x ++ [c]) = rstripL x := by
  unfold rstripL
  rw [List.reverse_append]
  simp [List.dropWhile_cons, hc]

theorem rstripL_append_right (x y : List Char) (hy : ∃ c ∈ y, pyIsSpace c = false) :
    rstripL (x ++ y) = x ++ rstripL y := by
  rcases hy with ⟨c, hc, hcw⟩
  unfold rstripL
  rw [List.reverse_append, List.dropWhile_append]
  have hne : y.reverse.dropWhile pyIsSpace ≠ [] := by
    have := mem_dropWhile_of_not pyIsSpace y.reverse c (by rwa [List.mem_reverse]) hcw
    exact List.ne_nil_of_mem this
  rw [if_neg (by simpa using hne)]
  rw [List.reverse_append, List.reverse_reverse]

theorem pyStripL_shape (sp p z : List Char)
    (hsp : ∀ x ∈ sp, pyIsSpace x = true) (hp : ∀ x ∈ p, pyIsSpace x = false) (hp0 : p ≠ []) :
    pyStripL (sp ++ (p ++ z)) = p ++ rstripL z := by
  unfold pyStripL lstripL
  rw [List.dropWhile_append_of_pos hsp]
  rcases p with _ | ⟨p0, p'⟩
  · cases hp0 rfl
  · rw [List.cons_append, List.dropWhile_cons,
      if_neg (by simp [hp p0 (List.mem_cons_self _ _)])]
    rw [← List.cons_append]
    exact rstripL_append_nonws _ _ hp

theorem pyStrip_shape (line : String) (sp p z : List Char)
    (hline : line.data = sp ++ (p ++ z))
    (hsp : ∀ x ∈ sp, pyIsSpace x = true) (hp : ∀ x ∈ p, pyIsSpace x = false) (hp0 : p ≠ []) :
    (pyStrip line).data = p ++ rstripL z := by
  show pyStripL line.data = p ++ rstripL z
  rw [hline]
  exact pyStripL_shape sp p z hsp hp hp0

theorem leadsWith_append_both : ∀ (p q z : List Char),
    leadsWith (p ++ q) (p ++ z) = leadsWith q z := by
  intro p
  induction p with
  | nil => intro q z; rfl
  | cons a as ih => intro q z; simp [leadsWith, ih]

theorem leadsWith_cons_of_ne {a b : Char} (h : a ≠ b) (p z : List Char) :
    leadsWith (a :: p) (b :: z) = false := by
  have hb : (a == b) = false := beq_eq_false_iff_ne.mpr h
  simp [leadsWith, hb]

theorem leadsWith_cons₂_of_ne (a : Char) {b c : Char} (h : b ≠ c) (p z : List Char) :
    leadsWith (a :: b :: p) (a :: c :: z) = false := by
  have hb : (b == c) = false := beq_eq_false_iff_ne.mpr h
  simp [leadsWith, hb]

/-- `s.startswith(kw)` holds when the data of `s` literally extends `kw`. -/
theorem pyStartswith_of_data (s kw : String) (tail : List Char)
    (h : s.data = kw.data ++ tail) : pyStartswith s kw = true := by
  unfold pyStartswith
  rw [h]
  exact leadsWith_append_self _ _

/-- The stripped line starts with `kw` when stripping yields `kw.data ++ tail`. -/
theorem pyStartswith_strip_of_shape (line kw : String) (tail : List Char)
    (h : (pyStrip line).data = kw.data ++ tail) : pyStartswith (pyStrip line) kw = true :=
  pyStartswith_of_data _ _ _ h

/-! Splitting a newline-joined list of newline-free lines recovers the lines. -/

theorem splitLinesL_of_no_nl (a : List Char) (ha : '\n' ∉ a) : splitLinesL a = [a] := by
  induction a with
  | nil => rfl
  | cons c cs ih =>
    have hc : ¬(c == '\n') = true := by
      simp only [beq_iff_eq]
      intro hceq
      exact ha (hceq ▸ List.mem_cons_self _ _)
    unfold splitLinesL
    rw [if_neg hc, ih (fun hmem => ha (List.mem_cons_of_mem _ hmem))]

theorem splitLinesL_append_nl (a b : List Char) (ha : '\n' ∉ a) :
    splitLinesL (a ++ '\n' :: b) = a :: splitLinesL b := by
  induction a with
  | nil => simp [splitLinesL]
  | cons c cs ih =>
    have hc : ¬(c == '\n') = true := by
      simp only [beq_iff_eq]
      intro hceq
      exact ha (hceq ▸ List.mem_cons_self _ _)
    rw [List.cons_append]
    show splitLinesL (c :: (cs ++ '\n' :: b)) = (c :: cs) :: splitLinesL b
    rw [splitLinesL, if_neg hc, ih (fun hmem => ha (List.mem_cons_of_mem _ hmem))]

theorem splitLinesL_joinWithL : ∀ (ls : List (List Char)), ls ≠ [] →
    (∀ l ∈ ls, '\n' ∉ l) → splitLinesL (joinWithL ['\n'] ls) = ls := by
  intro ls
  induction ls with
  | nil => intro h; cases h rfl
  | cons l rest ih =>
    intro _ hnl
    rcases rest with _ | ⟨l₂, rest'⟩
    · exact splitLinesL_of_no_nl l (hnl l (List.mem_cons_self _ _))
    · show splitLinesL (l ++ ['\n'] ++ joinWithL ['\n'] (l₂ :: rest')) = l :: l₂ :: rest'
      rw [List.append_assoc, List.singleton_append,
        splitLinesL_append_nl _ _ (hnl l (List.mem_cons_self _ _)),
        ih (List.cons_ne_nil _ _) (fun x hx => hnl x (List.mem_cons_of_mem _ hx))]

theorem mem_joinWithL (sep : List Char) : ∀ (ls : List (List Char)) (w : List Char)
    (c : Char), w ∈ ls → c ∈ w → c ∈ joinWithL sep ls := by
  intro ls
  induction ls with
  | nil => intro w c hw; cases hw
  | cons l rest ih =>
    intro w c hw hc
    rcases rest with _ | ⟨l₂, rest'⟩
    · rcases List.mem_cons.mp hw with rfl | h
      · exact hc
      · cases h
    · show c ∈ l ++ sep ++ joinWithL sep (l₂ :: rest')
      rcases List.mem_cons.mp hw with rfl | h
      · exact List.mem_append_left _ (List.mem_append_left _ hc)
      · exact List.mem_append_right _ (ih w c h hc)

theorem joinWithL_cons_of_ne_nil (sep x : List Char) (L : List (List Char)) (h : L ≠ []) :
    joinWithL sep (x :: L) = x ++ sep ++ joinWithL sep L := by
  rcases L with _ | ⟨l₂, rest⟩
  · cases h rfl
  · rfl

/-- Right-stripping a newline-joined document whose last rendered line ends in
a non-whitespace character removes exactly the final blank line. -/
theorem rstripL_joinWithL_drop_empty : ∀ (xs : List (List Char)) (y : List Char),
    rstripL y = y → y ≠ [] →
    rstripL (joinWithL ['\n'] (xs ++ [y, []])) = joinWithL ['\n'] (xs ++ [y]) := by
  intro xs
  induction xs with
  | nil =>
    intro y hy hy0
    show rstripL (y ++ ['\n'] ++ joinWithL ['\n'] [[]]) = y
    rw [show joinWithL ['\n'] [[]] = [] from rfl, List.append_nil,
      rstripL_append_ws_single y '\n' (by decide)]
    exact hy
  | cons x xs' ih =>
    intro y hy hy0
    have hynws : ∃ c ∈ y, pyIsSpace c = false := by
      by_contra hall
      push_neg at hall
      have : ∀ c ∈ y.reverse, pyIsSpace c = true := by
        intro c hc
        have := hall c (List.mem_reverse.mp hc)
        revert this
        cases pyIsSpace c <;> simp
      have hnil : rstripL y = [] := by
        unfold rstripL
        rw [List.dropWhile_eq_nil_iff.mpr this]
        rfl
      exact hy0 (hy ▸ hnil)
    rcases hynws with ⟨c, hcy, hcw⟩
    have hmem : c ∈ joinWithL ['\n'] (xs' ++ [y, []]) :=
      mem_joinWithL _ _ y c (by simp) hcy
    rw [List.cons_append, joinWithL_cons_of_ne_nil _ _ _ (by simp),
      List.cons_append, joinWithL_cons_of_ne_nil _ _ _ (by simp),
      rstripL_append_right _ _ ⟨c, hmem, hcw⟩, ih y hy hy0]

theorem string_mk_data (s : String) : String.mk s.data = s := rfl

/-! ## Evaluating the validator loop on rendered lines -/

theorem gwtStep_scenario (s : GwtState) (l : String)
    (h : pyStartswith (pyStrip l) "Scenario:" = true) :
    gwtStep s l = ⟨true, false, false, false⟩ := by
  simp [gwtStep, h]

theorem gwtStep_given (s : GwtState) (l : String)
    (h1 : pyStartswith (pyStrip l) "Scenario:" = false)
    (h2 : pyStartswith (pyStrip l) "Given" = true) (hs : s.started = true) :
    gwtStep s l = { s with hasGiven := true } := by
  simp [gwtStep, h1, h2, hs]

theorem gwtStep_when (s : GwtState) (l : String)
    (h1 : pyStartswith (pyStrip l) "Scenario:" = false)
    (h2 : pyStartswith (pyStrip l) "Given" = false)
    (h3 : pyStartswith (pyStrip l) "When" = true) (hs : s.started = true) :
    gwtStep s l = { s with hasWhen := true } := by
  simp [gwtStep, h1, h2, h3, hs]

theorem gwtStep_then (s : GwtState) (l : String)
    (h1 : pyStartswith (pyStrip l) "Scenario:" = false)
    (h2 : pyStartswith (pyStrip l) "Given" = false)
    (h3 : pyStartswith (pyStrip l) "When" = false)
    (h4 : pyStartswith (pyStrip l) "Then" = true) (hs : s.started = true) :
    gwtStep s l = { s with hasThen := true } := by
  simp [gwtStep, h1, h2, h3, h4, hs]

theorem startsFalse_of_strip_data (line kw : String) (a : Char) (ta : List Char)
    (b : Char) (tb : List Char) (hs : (pyStrip line).data = a :: ta) (hk : kw.data = b :: tb)
    (hne : b ≠ a) : pyStartswith (pyStrip line) kw = false := by
  unfold pyStartswith
  rw [hs, hk]
  exact leadsWith_cons_of_ne hne _ _

theorem map_mk_map_data (L : List String) : (L.map String.data).map String.mk = L := by
  induction L with
  | nil => rfl
  | cons x xs ih => simp [ih]

/-- The validator accepts any rendered document of the shape header lines,
arbitrary newline-free body lines, then a final scenario block whose lines
carry the Scenario/Given/When/Then prefixes. -/
theorem validate_lines_kernel (comps : Components) (pre : List String) (scL gL wL t : String)
    (hrole : '\n' ∉ comps.role.data) (haction : '\n' ∉ comps.action.data)
    (hbenefit : '\n' ∉ comps.benefit.data) (hfn : '\n' ∉ comps.feature_name.data)
    (hpre : ∀ l ∈ pre, '\n' ∉ l.data)
    (hscN : '\n' ∉ scL.data) (hgN : '\n' ∉ gL.data) (hwN : '\n' ∉ wL.data)
    (htN : '\n' ∉ t.data)
    (hsc : pyStartswith (pyStrip scL) "Scenario:" = true)
    (hg1 : pyStartswith (pyStrip gL) "Scenario:" = false)
    (hg2 : pyStartswith (pyStrip gL) "Given" = true)
    (hw1 : pyStartswith (pyStrip wL) "Scenario:" = false)
    (hw2 : pyStartswith (pyStrip wL) "Given" = false)
    (hw3 : pyStartswith (pyStrip wL) "When" = true)
    (ht2 : rstripL t.data = t.data) (ht3 : t.data ≠ []) :
    validate_gherkin (pyRstrip (pyJoin "\n"
      (["Feature: " ++ comps.feature_name, "  As a " ++ comps.role,
        "  I want to " ++ comps.action, "  So that I can " ++ comps.benefit, ""] ++
       pre ++ [scL, gL, wL, "    Then " ++ t, ""]))) = (true, []) := by
  have htnws : ∃ c ∈ t.data, pyIsSpace c = false := by
    by_contra hall
    push_neg at hall
    have hws : ∀ c ∈ t.data.reverse, pyIsSpace c = true := by
      intro c hc
      have := hall c (List.mem_reverse.mp hc)
      revert this
      cases pyIsSpace c <;> simp
    have : rstripL t.data = [] := by
      unfold rstripL
      rw [List.dropWhile_eq_nil_iff.mpr hws]
      rfl
    exact ht3 (ht2 ▸ this)
  -- the final Then line
  have hYdata : ("    Then " ++ t).data =
      [' ', ' ', ' ', ' '] ++ (("Then" : String).data ++ (' ' :: t.data)) := by
    rw [String.data_append]
    rfl
  have hYstrip : (pyStrip ("    Then " ++ t)).data =
      ("Then" : String).data ++ rstripL (' ' :: t.data) :=
    pyStrip_shape _ _ _ _ hYdata (by decide) (by decide) (by decide)
  have hYstripc : (pyStrip ("    Then " ++ t)).data =
      'T' :: (("hen" : String).data ++ rstripL (' ' :: t.data)) := hYstrip
  have hY1 : pyStartswith (pyStrip ("    Then " ++ t)) "Scenario:" = false :=
    startsFalse_of_strip_data _ _ _ _ _ _ hYstripc rfl (by decide)
  have hY2 : pyStartswith (pyStrip ("    Then " ++ t)) "Given" = false :=
    startsFalse_of_strip_data _ _ _ _ _ _ hYstripc rfl (by decide)
  have hY3 : pyStartswith (pyStrip ("    Then " ++ t)) "When" = false :=
    startsFalse_of_strip_data _ _ _ _ _ _ hYstripc rfl (by decide)
  have hY4 : pyStartswith (pyStrip ("    Then " ++ t)) "Then" = true :=
    pyStartswith_strip_of_shape _ _ _ hYstrip
  -- the feature line
  have hH1data : ("Feature: " ++ comps.feature_name).data =
      ([] : List Char) ++ (("Feature:" : String).data ++ (' ' :: comps.feature_name.data)) := by
    rw [String.data_append]
    rfl
  have hH1strip : (pyStrip ("Feature: " ++ comps.feature_name)).data =
      ("Feature:" : String).data ++ rstripL (' ' :: comps.feature_name.data) :=
    pyStrip_shape _ _ _ _ hH1data (by simp) (by decide) (by decide)
  have hH1f : pyStartswith (pyStrip ("Feature: " ++ comps.feature_name)) "Feature:" = true :=
    pyStartswith_strip_of_shape _ _ _ hH1strip
  -- the rendered document, re-split into its lines
  have hYr : rstripL ("    Then " ++ t).data = ("    Then " ++ t).data := by
    rw [String.data_append, rstripL_append_right _ _ (by
      rcases htnws with ⟨c, hc, hcw⟩
      exact ⟨c, hc, hcw⟩), ht2]
  have hYne : ("    Then " ++ t).data ≠ [] := by
    rw [String.data_append]
    simp
  have hnlall : ∀ l ∈ (["Feature: " ++ comps.feature_name, "  As a " ++ comps.role,
      "  I want to " ++ comps.action, "  So that I can " ++ comps.benefit, ""] ++
      pre ++ [scL, gL, wL, "    Then " ++ t]), '\n' ∉ l.data := by
    intro l hl
    simp only [List.mem_append, List.mem_cons, List.not_mem_nil, or_false] at hl
    rcases hl with ((rfl | rfl | rfl | rfl | rfl) | hl) | (rfl | rfl | rfl | rfl)
    · rw [String.data_append]
      intro hmem
      rcases List.mem_append.mp hmem with h | h
      · exact absurd h (by decide)
      · exact hfn h
    · rw [String.data_append]
      intro hmem
      rcases List.mem_append.mp hmem with h | h
      · exact absurd h (by decide)
      · exact hrole h
    · rw [String.data_append]
      intro hmem
      rcases List.mem_append.mp hmem with h | h
      · exact absurd h (by decide)
      · exact haction h
    · rw [String.data_append]
      intro hmem
      rcases List.mem_append.mp hmem with h | h
      · exact absurd h (by decide)
      · exact hbenefit h
    · simp
    · exact hpre l hl
    · exact hscN
    · exact hgN
    · exact hwN
    · rw [String.data_append]
      intro hmem
      rcases List.mem_append.mp hmem with h | h
      · exact absurd h (by decide)
      · exact htN h
  have hlines : pySplitLines (pyRstrip (pyJoin "\n"
      (["Feature: " ++ comps.feature_name, "  As a " ++ comps.role,
        "  I want to " ++ comps.action, "  So that I can " ++ comps.benefit, ""] ++
       pre ++ [scL, gL, wL, "    Then " ++ t, ""]))) =
      ["Feature: " ++ comps.feature_name, "  As a " ++ comps.role,
        "  I want to " ++ comps.action, "  So that I can " ++ comps.benefit, ""] ++
       pre ++ [scL, gL, wL, "    Then " ++ t] := by
    have e0 : pySplitLines (pyRstrip (pyJoin "\n"
        (["Feature: " ++ comps.feature_name, "  As a " ++ comps.role,
          "  I want to " ++ comps.action, "  So that I can " ++ comps.benefit, ""] ++
         pre ++ [scL, gL, wL, "    Then " ++ t, ""]))) =
        (splitLinesL (rstripL (joinWithL ['\n']
          ((["Feature: " ++ comps.feature_name, "  As a " ++ comps.role,
             "  I want to " ++ comps.action, "  So that I can " ++ comps.benefit, ""] ++
            pre ++ [scL, gL, wL, "    Then " ++ t, ""]).map String.data)))).map String.mk := rfl
    have hmapdata : (["Feature: " ++ comps.feature_name, "  As a " ++ comps.role,
          "  I want to " ++ comps.action, "  So that I can " ++ comps.benefit, ""] ++
         pre ++ [scL, gL, wL, "    Then " ++ t, ""]).map String.data =
        ((["Feature: " ++ comps.feature_name, "  As a " ++ comps.role,
           "  I want to " ++ comps.action, "  So that I can " ++ comps.benefit, ""] ++
          pre ++ [scL, gL, wL]).map String.data) ++ [("    Then " ++ t).data, []] := by
      simp [List.map_append]
    have hback : ((["Feature: " ++ comps.feature_name, "  As a " ++ comps.role,
           "  I want to " ++ comps.action, "  So that I can " ++ comps.benefit, ""] ++
          pre ++ [scL, gL, wL]).map String.data) ++ [("    Then " ++ t).data] =
        (["Feature: " ++ comps.feature_name, "  As a " ++ comps.role,
          "  I want to " ++ comps.action, "  So that I can " ++ comps.benefit, ""] ++
         pre ++ [scL, gL, wL, "    Then " ++ t]).map String.data := by
      simp [List.map_append]
    rw [e0, hmapdata, rstripL_joinWithL_drop_empty _ _ hYr hYne, hback,
      splitLinesL_joinWithL _ (by simp) ?_, map_mk_map_data]
    intro l hl
    rcases List.mem_map.mp hl with ⟨s, hs, rfl⟩
    exact hnlall s hs
  have hscan : gwtScan (["Feature: " ++ comps.feature_name, "  As a " ++ comps.role,
      "  I want to " ++ comps.action, "  So that I can " ++ comps.benefit, ""] ++
      pre ++ [scL, gL, wL, "    Then " ++ t]) = ⟨true, true, true, true⟩ := by
    unfold gwtScan
    rw [show (["Feature: " ++ comps.feature_name, "  As a " ++ comps.role,
        "  I want to " ++ comps.action, "  So that I can " ++ comps.benefit, ""] ++
        pre ++ [scL, gL, wL, "    Then " ++ t]) =
      ((["Feature: " ++ comps.feature_name, "  As a " ++ comps.role,
         "  I want to " ++ comps.action, "  So that I can " ++ comps.benefit, ""] ++ pre) ++
       [scL, gL, wL, "    Then " ++ t]) by simp]
    rw [List.foldl_append]
    simp only [List.foldl_cons, List.foldl_nil]
    rw [gwtStep_scenario _ _ hsc, gwtStep_given _ _ hg1 hg2 rfl,
      gwtStep_when _ _ hw1 hw2 hw3 rfl, gwtStep_then _ _ hY1 hY2 hY3 hY4 rfl]
  unfold validate_gherkin
  simp only
  rw [hlines, hscan]
  have hF : (["Feature: " ++ comps.feature_name, "  As a " ++ comps.role,
      "  I want to " ++ comps.action, "  So that I can " ++ comps.benefit, ""] ++
      pre ++ [scL, gL, wL, "    Then " ++ t]).any
        (fun l => pyStartswith (pyStrip l) "Feature:") = true := by
    simp [List.any_append, List.any_cons, hH1f]
  have hS : (["Feature: " ++ comps.feature_name, "  As a " ++ comps.role,
      "  I want to " ++ comps.action, "  So that I can " ++ comps.benefit, ""] ++
      pre ++ [scL, gL, wL, "    Then " ++ t]).any
        (fun l => pyStartswith (pyStrip l) "Scenario:") = true := by
    simp [List.any_append, List.any_cons, hsc]
  rw [hF, hS]
  simp

/-! ## Extraction outputs contain no newline (and benefits no trailing space) -/

theorem exists_nonws_of_rstripL_eq (l : List Char) (h2 : rstripL l = l) (h3 : l ≠ []) :
    ∃ c ∈ l, pyIsSpace c = false := by
  by_contra hall
  push_neg at hall
  have hws : ∀ c ∈ l.reverse, pyIsSpace c = true := by
    intro c hc
    have := hall c (List.mem_reverse.mp hc)
    revert this
    cases pyIsSpace c <;> simp
  have : rstripL l = [] := by
    unfold rstripL
    rw [List.dropWhile_eq_nil_iff.mpr hws]
    rfl
  exact h3 (h2 ▸ this)

theorem roleScan_mem : ∀ (tbl : List (String × String)) (dl : String),
    roleScan tbl dl ∈ "user" :: tbl.map Prod.snd := by
  intro tbl
  induction tbl with
  | nil => intro dl; exact List.mem_cons_self _ _
  | cons kv rest ih =>
    intro dl
    obtain ⟨k, r⟩ := kv
    unfold roleScan
    by_cases h : pyIn k dl = true
    · rw [if_pos h]
      simp
    · rw [if_neg h]
      have := ih dl
      simp only [List.mem_cons, List.map_cons] at this ⊢
      tauto

theorem extract_user_role_mem (d : String) : extract_user_role d ∈
    (["user", "administrator", "developer", "analyst", "manager", "customer"] : List String) := by
  have h := roleScan_mem USER_ROLES (pyLower d)
  have hsub : ∀ x ∈ ("user" :: USER_ROLES.map Prod.snd),
      x ∈ (["user", "administrator", "developer", "analyst", "manager",
        "customer"] : List String) := by decide
  exact hsub _ h

theorem noNL_role (d : String) : '\n' ∉ (extract_user_role d).data := by
  have h := extract_user_role_mem d
  have hall : ∀ x ∈ (["user", "administrator", "developer", "analyst", "manager",
      "customer"] : List String), '\n' ∉ x.data := by decide
  exact hall _ h

theorem benefitScan_mem : ∀ (tbl : List (String × String)) (dl : String),
    benefitScan tbl dl ∈ tbl.map Prod.snd ++
      ["easily add new information to the system", "keep my information current and accurate",
       "access the information I need", "accomplish my goals efficiently"] := by
  intro tbl
  induction tbl with
  | nil =>
    intro dl
    unfold benefitScan
    split_ifs <;> simp
  | cons kv rest ih =>
    intro dl
    obtain ⟨k, b⟩ := kv
    unfold benefitScan
    by_cases h : pyIn k dl = true
    · rw [if_pos h]
      simp
    · rw [if_neg h]
      have := ih dl
      simp only [List.map_cons, List.cons_append, List.mem_cons] at this ⊢
      tauto

theorem extract_benefit_mem (d : String) : extract_benefit d ∈
    (["securely access my account", "access the system securely",
      "quickly find the information I need", "share and store my files",
      "efficiently organize my data", "stay informed about important updates",
      "integrate with external systems", "have an overview of my information",
      "maintain my personal information", "easily add new information to the system",
      "keep my information current and accurate", "access the information I need",
      "accomplish my goals efficiently"] : List String) := by
  have h := benefitScan_mem benefits (pyLower d)
  have hsub : ∀ x ∈ (benefits.map Prod.snd ++
      ["easily add new information to the system", "keep my information current and accurate",
       "access the information I need", "accomplish my goals efficiently"]),
      x ∈ (["securely access my account", "access the system securely",
        "quickly find the information I need", "share and store my files",
        "efficiently organize my data", "stay informed about important updates",
        "integrate with external systems", "have an overview of my information",
        "maintain my personal information", "easily add new information to the system",
        "keep my information current and accurate", "access the information I need",
        "accomplish my goals efficiently"] : List String) := by decide
  exact hsub _ h

theorem noNL_benefit (d : String) : '\n' ∉ (extract_benefit d).data := by
  have h := extract_benefit_mem d
  have hall : ∀ x ∈ (["securely access my account", "access the system securely",
      "quickly find the information I need", "share and store my files",
      "efficiently organize my data", "stay informed about important updates",
      "integrate with external systems", "have an overview of my information",
      "maintain my personal information", "easily add new information to the system",
      "keep my information current and accurate", "access the information I need",
      "accomplish my goals efficiently"] : List String), '\n' ∉ x.data := by decide
  exact hall _ h

theorem rstripL_benefit (d : String) :
    rstripL (extract_benefit d).data = (extract_benefit d).data := by
  have h := extract_benefit_mem d
  have hall : ∀ x ∈ (["securely access my account", "access the system securely",
      "quickly find the information I need", "share and store my files",
      "efficiently organize my data", "stay informed about important updates",
      "integrate with external systems", "have an overview of my information",
      "maintain my personal information", "easily add new information to the system",
      "keep my information current and accurate", "access the information I need",
      "accomplish my goals efficiently"] : List String), rstripL x.data = x.data := by decide
  exact hall _ h

theorem benefit_ne_nil (d : String) : (extract_benefit d).data ≠ [] := by
  have h := extract_benefit_mem d
  have hall : ∀ x ∈ (["securely access my account", "access the system securely",
      "quickly find the information I need", "share and store my files",
      "efficiently organize my data", "stay informed about important updates",
      "integrate with external systems", "have an overview of my information",
      "maintain my personal information", "easily add new information to the system",
      "keep my information current and accurate", "access the information I need",
      "accomplish my goals efficiently"] : List String), x.data ≠ [] := by decide
  exact hall _ h

theorem splitWSAux_chars : ∀ (l acc : List Char), (∀ c ∈ acc, pyIsSpace c = false) →
    ∀ w ∈ splitWSAux l acc, ∀ c ∈ w, pyIsSpace c = false := by
  intro l
  induction l with
  | nil =>
    intro acc hacc w hw c hc
    unfold splitWSAux at hw
    split at hw
    · cases hw
    · rcases List.mem_cons.mp hw with rfl | h
      · exact hacc c (List.mem_reverse.mp hc)
      · cases h
  | cons x xs ih =>
    intro acc hacc w hw c hc
    unfold splitWSAux at hw
    split at hw
    · split at hw
      · exact ih [] (by simp) w hw c hc
      · rcases List.mem_cons.mp hw with rfl | h
        · exact hacc c (List.mem_reverse.mp hc)
        · exact ih [] (by simp) w h c hc
    · rename_i hx
      refine ih (x :: acc) ?_ w hw c hc
      intro c' hc'
      rcases List.mem_cons.mp hc' with rfl | h
      · simpa using hx
      · exact hacc c' h

theorem pySplitWS_chars (s : String) (w : String) (hw : w ∈ pySplitWS s) :
    ∀ c ∈ w.data, pyIsSpace c = false := by
  unfold pySplitWS at hw
  rcases List.mem_map.mp hw with ⟨w', hw', rfl⟩
  exact splitWSAux_chars s.data [] (by simp) w' hw'

theorem mem_of_mem_rstripL (c : Char) (l : List Char) (h : c ∈ rstripL l) : c ∈ l := by
  unfold rstripL at h
  rw [List.mem_reverse] at h
  exact List.mem_reverse.mp (List.dropWhile_subset _ h)

theorem mem_of_mem_pyStripL (c : Char) (l : List Char) (h : c ∈ pyStripL l) : c ∈ l := by
  unfold pyStripL lstripL at h
  exact List.dropWhile_subset _ (mem_of_mem_rstripL c _ h)

theorem joinWithL_chars (sep : List Char) : ∀ (ls : List (List Char)) (c : Char),
    c ∈ joinWithL sep ls → c ∈ sep ∨ ∃ w ∈ ls, c ∈ w := by
  intro ls
  induction ls with
  | nil => intro c hc; cases hc
  | cons l rest ih =>
    intro c hc
    rcases rest with _ | ⟨l₂, rest'⟩
    · exact Or.inr ⟨l, List.mem_cons_self _ _, hc⟩
    · rw [joinWithL_cons_of_ne_nil _ _ _ (List.cons_ne_nil _ _)] at hc
      rcases List.mem_append.mp hc with hc1 | hc2
      · rcases List.mem_append.mp hc1 with hcl | hcs
        · exact Or.inr ⟨l, List.mem_cons_self _ _, hcl⟩
        · exact Or.inl hcs
      · rcases ih c hc2 with h | ⟨w, hw, hcw⟩
        · exact Or.inl h
        · exact Or.inr ⟨w, List.mem_cons_of_mem _ hw, hcw⟩

theorem noNL_action (d : String) : '\n' ∉ (extract_action d).data := by
  unfold extract_action
  simp only
  rcases hfa : (pySplitWS d).filter (fun w => action_verbs.contains w) with _ | ⟨primary, found'⟩
  · rcases hws : pySplitWS d with _ | ⟨w0, ws⟩
    · decide
    · intro hmem
      rw [String.data_append] at hmem
      rcases List.mem_append.mp hmem with h | h
      · exact absurd h (by decide)
      · have hw0 : w0 ∈ pySplitWS d := by rw [hws]; exact List.mem_cons_self _ _
        have := pySplitWS_chars d w0 hw0 '\n' h
        exact absurd this (by decide)
  · have hprim : primary ∈ pySplitWS d := by
      have : primary ∈ (pySplitWS d).filter (fun w => action_verbs.contains w) := by
        rw [hfa]; exact List.mem_cons_self _ _
      exact List.mem_of_mem_filter this
    by_cases hidx : pyIndex (pySplitWS d) primary < (pySplitWS d).length - 1
    · show '\n' ∉ (if pyIndex (pySplitWS d) primary < (pySplitWS d).length - 1 then
          pyStrip (primary ++ " " ++
            pyJoin " " (((pySplitWS d).drop (pyIndex (pySplitWS d) primary + 1)).take 2))
        else primary).data
      rw [if_pos hidx]
      intro hmem
      have hmem2 := mem_of_mem_pyStripL '\n' _ hmem
      rw [String.data_append, String.data_append] at hmem2
      rcases List.mem_append.mp hmem2 with h | h
      · rcases List.mem_append.mp h with h1 | h1
        · have := pySplitWS_chars d primary hprim '\n' h1
          exact absurd this (by decide)
        · exact absurd h1 (by decide)
      · rcases joinWithL_chars _ _ _ h with hsep | ⟨w, hw, hcw⟩
        · exact absurd hsep (by decide)
        · rcases List.mem_map.mp hw with ⟨ws', hws', rfl⟩
          have hwmem : ws' ∈ pySplitWS d :=
            List.drop_subset _ _ (List.take_subset _ _ hws')
          have := pySplitWS_chars d ws' hwmem '\n' hcw
          exact absurd this (by decide)
    · show '\n' ∉ (if pyIndex (pySplitWS d) primary < (pySplitWS d).length - 1 then
          pyStrip (primary ++ " " ++
            pyJoin " " (((pySplitWS d).drop (pyIndex (pySplitWS d) primary + 1)).take 2))
        else primary).data
      rw [if_neg hidx]
      intro hmem
      have := pySplitWS_chars d primary hprim '\n' hmem
      exact absurd this (by decide)

theorem char_ofNat_toNat {n : Nat} (h : n.isValidChar) : (Char.ofNat n).toNat = n := by
  rw [Char.ofNat, dif_pos h]
  rfl

theorem toUpper_ne_nl (c : Char) (h : pyIsSpace c = false) : Char.toUpper c ≠ '\n' := by
  show (if c.toNat ≥ 97 ∧ c.toNat ≤ 122 then Char.ofNat (c.toNat - 32) else c) ≠ '\n'
  split
  · rename_i hcond
    intro heq
    have h1 : (Char.ofNat (Char.toNat c - 32)).toNat = Char.toNat c - 32 :=
      char_ofNat_toNat (Or.inl (by omega))
    rw [heq] at h1
    have h2 : ('\n' : Char).toNat = 10 := rfl
    omega
  · intro heq
    rw [heq] at h
    exact absurd h (by decide)

theorem toLower_ne_nl (c : Char) (h : pyIsSpace c = false) : Char.toLower c ≠ '\n' := by
  show (if c.toNat ≥ 65 ∧ c.toNat ≤ 90 then Char.ofNat (c.toNat + 32) else c) ≠ '\n'
  split
  · rename_i hcond
    intro heq
    have h1 : (Char.ofNat (Char.toNat c + 32)).toNat = Char.toNat c + 32 :=
      char_ofNat_toNat (Or.inl (by omega))
    rw [heq] at h1
    have h2 : ('\n' : Char).toNat = 10 := rfl
    omega
  · intro heq
    rw [heq] at h
    exact absurd h (by decide)

theorem noNL_capitalize (w : String) (hw : ∀ c ∈ w.data, pyIsSpace c = false) :
    '\n' ∉ (pyCapitalize w).data := by
  unfold pyCapitalize
  rcases hdata : w.data with _ | ⟨c, cs⟩
  · intro h
    exact absurd h (by decide)
  · intro hmem
    rcases List.mem_cons.mp hmem with heq | hmem'
    · exact toUpper_ne_nl c (hw c (by rw [hdata]; exact List.mem_cons_self _ _)) heq.symm
    · rcases List.mem_map.mp hmem' with ⟨c', hc', heq⟩
      exact toLower_ne_nl c' (hw c' (by rw [hdata]; exact List.mem_cons_of_mem _ hc')) heq

theorem extract_feature_name_eq_some (d ft : String) (p : FeaturePattern)
    (h : FEATURE_PATTERNS.find? (fun q => q.ftype == ft) = some p) :
    extract_feature_name d ft = p.featureName := by
  unfold extract_feature_name
  rw [h]

theorem noNL_feature_name (d ft : String) : '\n' ∉ (extract_feature_name d ft).data := by
  unfold extract_feature_name
  rcases hfind : FEATURE_PATTERNS.find? (fun p => p.ftype == ft) with _ | p
  · rw [hfind]
    intro hmem
    rcases joinWithL_chars _ _ _ hmem with hsep | ⟨w, hw, hcw⟩
    · exact absurd hsep (by decide)
    · rcases List.mem_map.mp hw with ⟨w', hw', rfl⟩
      rcases List.mem_map.mp hw' with ⟨u, hu, rfl⟩
      have hum : u ∈ pySplitWS d := List.take_subset _ _ hu
      exact noNL_capitalize u (pySplitWS_chars d u hum) hcw
  · rw [show (match FEATURE_PATTERNS.find? (fun q => q.ftype == ft) with
        | some p => p.featureName
        | none => pyJoin " " (((pySplitWS d).take 3).map pyCapitalize)) = p.featureName from by
      rw [hfind]]
    have hp := List.mem_of_find?_eq_some hfind
    simp only [FEATURE_PATTERNS, List.mem_cons, List.not_mem_nil, or_false] at hp
    rcases hp with rfl | rfl | rfl | rfl | rfl | rfl <;> decide

/-- Any rendered Gherkin document passes the validator, given that the four
extracted components are newline-free and the benefit phrase is non-empty with
no trailing whitespace. -/
theorem validate_generate_gherkin_content (comps : Components) (ft : String)
    (hrole : '\n' ∉ comps.role.data) (haction : '\n' ∉ comps.action.data)
    (hbenefit : '\n' ∉ comps.benefit.data) (hfn : '\n' ∉ comps.feature_name.data)
    (hb2 : rstripL comps.benefit.data = comps.benefit.data) (hb3 : comps.benefit.data ≠ []) :
    validate_gherkin (generate_gherkin_content comps ft) = (true, []) := by
  unfold generate_gherkin_content
  rcases hfind : FEATURE_PATTERNS.find? (fun p => p.ftype == ft) with _ | p
  · have hse : scenariosFor comps ft = [genericScenario comps] := by
      unfold scenariosFor
      rw [hfind]
    rw [hse]
    have hbnws : ∃ c ∈ comps.benefit.data, pyIsSpace c = false :=
      exists_nonws_of_rstripL_eq _ hb2 hb3
    have hwdata : ("    When " ++ ("I " ++ comps.action)).data =
        [' ', ' ', ' ', ' '] ++
          (("When" : String).data ++ (' ' :: 'I' :: ' ' :: comps.action.data)) := by
      rw [String.data_append, String.data_append]
      rfl
    have hwstrip : (pyStrip ("    When " ++ ("I " ++ comps.action))).data =
        ("When" : String).data ++ rstripL (' ' :: 'I' :: ' ' :: comps.action.data) :=
      pyStrip_shape _ _ _ _ hwdata (by decide) (by decide) (by decide)
    have hwstripc : (pyStrip ("    When " ++ ("I " ++ comps.action))).data =
        'W' :: (("hen" : String).data ++ rstripL (' ' :: 'I' :: ' ' :: comps.action.data)) :=
      hwstrip
    have hw3 : pyStartswith (pyStrip ("    When " ++ ("I " ++ comps.action))) "When" = true :=
      pyStartswith_strip_of_shape _ _ _ hwstrip
    have hw1 : pyStartswith (pyStrip ("    When " ++ ("I " ++ comps.action))) "Scenario:" =
        false := startsFalse_of_strip_data _ _ _ _ _ _ hwstripc rfl (by decide)
    have hw2 : pyStartswith (pyStrip ("    When " ++ ("I " ++ comps.action))) "Given" = false :=
      startsFalse_of_strip_data _ _ _ _ _ _ hwstripc rfl (by decide)
    have hwN : '\n' ∉ ("    When " ++ ("I " ++ comps.action)).data := by
      rw [hwdata]
      intro hmem
      rcases List.mem_append.mp hmem with h | h
      · exact absurd h (by decide)
      · rcases List.mem_append.mp h with h1 | h1
        · exact absurd h1 (by decide)
        · rcases List.mem_cons.mp h1 with heq | h2
          · exact absurd heq (by decide)
          · rcases List.mem_cons.mp h2 with heq | h3
            · exact absurd heq (by decide)
            · rcases List.mem_cons.mp h3 with heq | h4
              · exact absurd heq (by decide)
              · exact haction h4
    have htN : '\n' ∉ ("I should be able to " ++ comps.benefit).data := by
      rw [String.data_append]
      intro hmem
      rcases List.mem_append.mp hmem with h | h
      · exact absurd h (by decide)
      · exact hbenefit h
    have ht2 : rstripL ("I should be able to " ++ comps.benefit).data =
        ("I should be able to " ++ comps.benefit).data := by
      rw [String.data_append, rstripL_append_right _ _ hbnws, hb2]
    have ht3 : ("I should be able to " ++ comps.benefit).data ≠ [] := by
      rw [String.data_append]
      simp
    exact validate_lines_kernel comps [] "  Scenario: Basic functionality"
      "    Given I am using the system" ("    When " ++ ("I " ++ comps.action))
      ("I should be able to " ++ comps.benefit)
      hrole haction hbenefit hfn (by simp)
      (by decide) (by decide) hwN htN
      (by decide) (by decide) (by decide)
      hw1 hw2 hw3 ht2 ht3
  · have hse : scenariosFor comps ft = p.scenarios := by
      unfold scenariosFor
      rw [hfind]
    rw [hse]
    have hp := List.mem_of_find?_eq_some hfind
    simp only [FEATURE_PATTERNS, List.mem_cons, List.not_mem_nil, or_false] at hp
    rcases hp with rfl | rfl | rfl | rfl | rfl | rfl
    · exact validate_lines_kernel comps
        ["  Scenario: Successful authentication", "    Given I am on the login page",
         "    When I enter valid credentials", "    Then I should be logged in successfully", ""]
        "  Scenario: Invalid credentials" "    Given I am on the login page"
        "    When I enter invalid credentials" "I should see an error message"
        hrole haction hbenefit hfn (by decide) (by decide) (by decide) (by decide) (by decide)
        (by decide) (by decide) (by decide) (by decide) (by decide) (by decide)
        (by decide) (by decide)
    · exact validate_lines_kernel comps
        ["  Scenario: Create new item", "    Given I am on the management page",
         "    When I create a new item with valid information",
         "    Then the item should be saved successfully", ""]
        "  Scenario: Update existing item" "    Given I have an existing item"
        "    When I update the item information" "the changes should be saved"
        hrole haction hbenefit hfn (by decide) (by decide) (by decide) (by decide) (by decide)
        (by decide) (by decide) (by decide) (by decide) (by decide) (by decide)
        (by decide) (by decide)
    · exact validate_lines_kernel comps
        ["  Scenario: Successful API call", "    Given the API is available",
         "    When I make a valid API request",
         "    Then I should receive the correct response", ""]
        "  Scenario: Handle API errors" "    Given the API is unavailable"
        "    When I make an API request" "I should receive an appropriate error message"
        hrole haction hbenefit hfn (by decide) (by decide) (by decide) (by decide) (by decide)
        (by decide) (by decide) (by decide) (by decide) (by decide) (by decide)
        (by decide) (by decide)
    · exact validate_lines_kernel comps
        ["  Scenario: Successful search", "    Given I am on the search page",
         "    When I enter a search term and click search",
         "    Then I should see relevant results", ""]
        "  Scenario: No search results" "    Given I am on the search page"
        "    When I search for a term with no matches" "I should see a no results message"
        hrole haction hbenefit hfn (by decide) (by decide) (by decide) (by decide) (by decide)
        (by decide) (by decide) (by decide) (by decide) (by decide) (by decide)
        (by decide) (by decide)
    · exact validate_lines_kernel comps
        ["  Scenario: Upload file successfully", "    Given I am on the file upload page",
         "    When I select and upload a valid file",
         "    Then the file should be uploaded successfully", ""]
        "  Scenario: Invalid file type" "    Given I am on the file upload page"
        "    When I try to upload an invalid file type" "I should see an error message"
        hrole haction hbenefit hfn (by decide) (by decide) (by decide) (by decide) (by decide)
        (by decide) (by decide) (by decide) (by decide) (by decide) (by decide)
        (by decide) (by decide)
    · exact validate_lines_kernel comps
        ["  Scenario: Receive notification", "    Given I have notifications enabled",
         "    When an event occurs that requires notification",
         "    Then I should receive a notification", ""]
        "  Scenario: Mark notification as read" "    Given I have unread notifications"
        "    When I click on a notification" "it should be marked as read"
        hrole haction hbenefit hfn (by decide) (by decide) (by decide) (by decide) (by decide)
        (by decide) (by decide) (by decide) (by decide) (by decide) (by decide)
        (by decide) (by decide)

/-- C10: the Gherkin text produced by a successful generation call always
passes the engine's own validator with no issues: it has a `Feature:` line,
`Scenario:` lines, and Given/When/Then lines in its final scenario block. -/
theorem claim10_generated_story_validates (fd : String) (st : StoryType) (pr : Priority)
    (now : String) (r : StoryResult) (h : generate_story fd st pr now = .ok r) :
    validate_gherkin r.gherkin_content = (true, []) := by
  unfold generate_story at h
  by_cases hguard : (fd == "" || pyStrip fd == "") = true
  · rw [if_pos hguard] at h
    cases h
  · rw [if_neg hguard] at h
    injection h with h
    subst h
    exact validate_generate_gherkin_content _ _
      (noNL_role _) (noNL_action _) (noNL_benefit _) (noNL_feature_name _ _)
      (rstripL_benefit _) (benefit_ne_nil _)

theorem claim10_witness :
    ∃ r, generate_story "Search functionality for products" .story .medium
        "2025-07-26T12:00:00" = .ok r ∧
      validate_gherkin r.gherkin_content = (true, []) :=
  ⟨builtStory "Search functionality for products" .story .medium "2025-07-26T12:00:00",
   generate_story_ok _ _ _ _ (by decide),
   claim10_generated_story_validates _ _ _ _ _ (generate_story_ok _ _ _ _ (by decide))⟩

end ADH
